import Mathlib

/-!
Verification development for the casbinx permission engine.

The Go source is shallowly embedded: permission tuples, grouping tuples and
the role-metadata table become Lean lists; fallible Go functions become
`Except`-valued Lean functions; Go panics become `Option` `none`.
-/

set_option maxRecDepth 4000
set_option linter.unusedVariables false

namespace Casbinx

/-- A permission: resource and action, both plain strings (core/permission.go). -/
structure Permission where
  resource : String
  action : String
  deriving DecidableEq, Repr

/-- A raw casbin p-tuple: (subject, domain, resource, action) (core/policy model). -/
structure Policy where
  subject : String
  domain : String
  resource : String
  action : String
  deriving DecidableEq, Repr

/-- A casbin g-tuple: (user, role, domain). -/
structure GroupingPolicy where
  userKey : String
  roleKey : String
  tenantKey : String
  deriving DecidableEq, Repr

/-- The casbin policy store state: permission tuples and role assignments. -/
structure Model where
  policies : List Policy
  groupings : List GroupingPolicy
  deriving DecidableEq, Repr

/-- Errors surfaced by the engine.  Named constructors correspond to the
named `core.Err*` values; `wrapped` models `fmt.Errorf("...: %w", err)`;
the remaining constructors model the anonymous `fmt.Errorf` messages. -/
inductive CxError where
  | invalidParameter
  | selfElevationPrevented
  | systemPermissionImmutable
  | systemRoleImmutable
  | systemRoleAssignmentDenied
  | systemRoleRemovalDenied
  | globalRoleAccessDenied
  | invalidAction (s : String)
  | operatorNoPermission (op : String) (p : Permission)
  | noUserMgmtPermission (op : String)
  | noRoleMgmtPermission (op : String)
  | notAValidRole (k : String)
  | roleNotFound (k : String)
  | cannotOperateRoleDirectly (k : String)
  | wrapped (tag : String) (e : CxError)
  deriving DecidableEq, Repr

instance {e a : Type} [DecidableEq e] [DecidableEq a] : DecidableEq (Except e a)
  | .ok x, .ok y =>
    if h : x = y then .isTrue (by rw [h]) else .isFalse (fun hc => h (by cases hc; rfl))
  | .ok _, .error _ => .isFalse (fun hc => Except.noConfusion hc)
  | .error _, .ok _ => .isFalse (fun hc => Except.noConfusion hc)
  | .error x, .error y =>
    if h : x = y then .isTrue (by rw [h]) else .isFalse (fun hc => h (by cases hc; rfl))

/-- The actions accepted by `core.ParseAction`. -/
def validAction (s : String) : Bool :=
  s == "read" || s == "write" || s == "delete" || s == "_none"

/-- `core.ParseAction`: accepts read/write/delete/_none, errors otherwise. -/
def parseAction (s : String) : Except CxError String :=
  if validAction s then .ok s else .error (.invalidAction s)

/-- Every policy tuple in the store carries a parseable action. -/
def wellFormed (m : Model) : Bool :=
  m.policies.all (fun q => validAction q.action)

/-- The permission carried by a raw policy tuple. -/
def permOf (q : Policy) : Permission := ⟨q.resource, q.action⟩

/-- Security configuration (core/config.go). -/
structure SecurityConfig where
  preventSelfElevation : Bool
  systemPermissions : List Permission
  deriving DecidableEq, Repr

/-- `core.DefaultSecurityConfig` (core/config.go lines 39-66). -/
def defaultSecurityConfig : SecurityConfig where
  preventSelfElevation := true
  systemPermissions :=
    [ ⟨"tenant", "write"⟩, ⟨"tenant", "delete"⟩, ⟨"tenant", "read"⟩,
      ⟨"system", "write"⟩, ⟨"system", "read"⟩, ⟨"system", "delete"⟩,
      ⟨"user", "write"⟩, ⟨"user", "delete"⟩,
      ⟨"permission", "write"⟩, ⟨"permission", "delete"⟩ ]

/-- `SecurityValidator.isSystemPermission`: exact resource+action match
against the configured list. -/
def isSystemPermission (config : SecurityConfig) (p : Permission) : Bool :=
  config.systemPermissions.any (fun s => p.resource == s.resource && p.action == s.action)

/-- `SecurityValidator.isManagementPermission` (core/constants.go 285-307). -/
def isManagementPermission (config : SecurityConfig) (p : Permission) : Bool :=
  (p.resource == "permission" && (p.action == "write" || p.action == "delete")) ||
  (p.resource == "user" && (p.action == "write" || p.action == "delete")) ||
  (p.resource == "role" && (p.action == "write" || p.action == "delete")) ||
  isSystemPermission config p

/-- `SecurityValidator.PreventSelfElevation` (core/constants.go 264-282). -/
def preventSelfElevationCheck (config : SecurityConfig) (operatorKey targetKey : String)
    (p : Permission) : Except CxError Unit :=
  if !config.preventSelfElevation then .ok ()
  else if operatorKey ≠ targetKey then .ok ()
  else if isManagementPermission config p then .error .selfElevationPrevented
  else .ok ()

/-- The `PermissionChecker` interface: `CheckPermission(user, tenant, permission)`. -/
def Checker := String → String → Permission → Except CxError Bool

/-- `SecurityValidator.validateOperatorPermission` (core/constants.go 309-343);
the Go switch has identical bodies for the System and Normal branches, both
requiring `{permission, write}` in the domain. `none` models a nil checker
(compatibility mode: skip the check). -/
def validateOperatorPermission (checker : Option Checker) (operatorKey domain : String)
    (p : Permission) : Except CxError Unit :=
  match checker with
  | none => .ok ()
  | some ck =>
    match ck operatorKey domain ⟨"permission", "write"⟩ with
    | .error e => .error (.wrapped "check operator permission" e)
    | .ok true => .ok ()
    | .ok false => .error (.operatorNoPermission operatorKey p)

/-- `SecurityValidator.ValidatePermissionGrant` (core/constants.go 144-161):
self-elevation check first, then the system-permission check, then the
operator-authorization check; any failing step returns its error. -/
def validatePermissionGrant (config : SecurityConfig) (checker : Option Checker)
    (operatorKey targetUserKey tenantKey : String) (p : Permission) : Except CxError Unit :=
  match preventSelfElevationCheck config operatorKey targetUserKey p with
  | .error e => .error e
  | .ok _ =>
    if isSystemPermission config p then .error .systemPermissionImmutable
    else validateOperatorPermission checker operatorKey tenantKey p

/-- `SecurityValidator.ValidatePermissionGrantWithDomain` (core/constants.go 164-181):
identical checks, the domain argument is the operator domain. -/
def validatePermissionGrantWithDomain (config : SecurityConfig) (checker : Option Checker)
    (operatorKey targetUserKey operatorDomain : String) (p : Permission) : Except CxError Unit :=
  match preventSelfElevationCheck config operatorKey targetUserKey p with
  | .error e => .error e
  | .ok _ =>
    if isSystemPermission config p then .error .systemPermissionImmutable
    else validateOperatorPermission checker operatorKey operatorDomain p

/-- `SecurityValidator.ValidatePermissionRevoke` (core/constants.go 184-201):
the same three checks are applied to revocations. -/
def validatePermissionRevoke (config : SecurityConfig) (checker : Option Checker)
    (operatorKey targetUserKey tenantKey : String) (p : Permission) : Except CxError Unit :=
  match preventSelfElevationCheck config operatorKey targetUserKey p with
  | .error e => .error e
  | .ok _ =>
    if isSystemPermission config p then .error .systemPermissionImmutable
    else validateOperatorPermission checker operatorKey tenantKey p

/-! ### core.Enforcer: policy store primitives (core/policy wrapper, core/permission.go) -/

/-- casbin `GetPermissionsForUser(user, domain)`: raw p-tuples with matching
subject and domain, no parsing, no inheritance. -/
def getPermissionsForUser (m : Model) (u d : String) : List Policy :=
  m.policies.filter (fun q => decide (q.subject = u ∧ q.domain = d))

/-- casbin `GetRolesForUserInDomain(user, domain)`: roles from g-tuples with
matching user and domain. -/
def getRolesForUserInDomain (m : Model) (u d : String) : List String :=
  (m.groupings.filter (fun g => decide (g.userKey = u ∧ g.tenantKey = d))).map (·.roleKey)

/-- casbin `AddPolicy`: no-op when the tuple already exists. -/
def addPolicyM (m : Model) (subject domain : String) (p : Permission) : Model :=
  let q : Policy := ⟨subject, domain, p.resource, p.action⟩
  if q ∈ m.policies then m else { m with policies := m.policies ++ [q] }

/-- casbin `RemovePolicy`: removes the matching tuple. -/
def removePolicyM (m : Model) (subject domain : String) (p : Permission) : Model :=
  { m with policies :=
      m.policies.filter (fun q => decide (¬(q.subject = subject ∧ q.domain = domain ∧
        q.resource = p.resource ∧ q.action = p.action))) }

/-- casbin `AddRoleForUserInDomain`: no-op when the assignment already exists. -/
def addGroupingPolicyM (m : Model) (userKey roleKey domain : String) : Model :=
  let g : GroupingPolicy := ⟨userKey, roleKey, domain⟩
  if g ∈ m.groupings then m else { m with groupings := m.groupings ++ [g] }

/-- casbin `DeleteRoleForUserInDomain`: removes the matching assignment. -/
def removeGroupingPolicyM (m : Model) (userKey roleKey domain : String) : Model :=
  { m with groupings :=
      m.groupings.filter (fun g => decide (¬(g.userKey = userKey ∧ g.roleKey = roleKey ∧
        g.tenantKey = domain))) }

/-- Loop body of `Enforcer.GetPolicies` (core/permission.go 248-277): every
tuple's action is parsed (the first invalid action aborts), then the
subject/domain filter is applied (empty filter = wildcard). -/
def getPoliciesAux (subject domain : String) : List Policy → Except CxError (List Policy)
  | [] => .ok []
  | q :: rest => do
    let a ← parseAction q.action
    let tail ← getPoliciesAux subject domain rest
    if (subject = "" ∨ q.subject = subject) ∧ (domain = "" ∨ q.domain = domain) then
      return { q with action := a } :: tail
    else
      return tail

/-- `Enforcer.GetPolicies(subject, domain)`. -/
def getPolicies (m : Model) (subject domain : String) : Except CxError (List Policy) :=
  getPoliciesAux subject domain m.policies

/-- `Enforcer.ClearPolicies(subject)` (core/permission.go 285-300): queries the
subject's tuples then removes each one. -/
def clearPolicies (m : Model) (subject : String) : Except CxError Model := do
  let ps ← getPolicies m subject ""
  return ps.foldl (fun acc q => removePolicyM acc q.subject q.domain ⟨q.resource, q.action⟩) m

/-- Converting gathered raw tuples to `Permission`s, parsing each action in
order; the first invalid action aborts (GetImplicitPermissions step 4). -/
def mapPerms : List Policy → Except CxError (List Permission)
  | [] => .ok []
  | q :: rest => do
    let a ← parseAction q.action
    let tail ← mapPerms rest
    return ⟨q.resource, a⟩ :: tail

/-- Role deduplication loop of `GetImplicitPermissions` (keeps first occurrences). -/
def dedupAux : List String → List String → List String
  | [], _ => []
  | r :: rs, seen => if r ∈ seen then dedupAux rs seen else r :: dedupAux rs (r :: seen)

/-- Inner loop of `GetImplicitPermissions` step 3: a role's tuples across the
domains to check, in order. -/
def domainPoliciesFor (m : Model) (r : String) : List String → List Policy
  | [] => []
  | cd :: cds => getPermissionsForUser m r cd ++ domainPoliciesFor m r cds

/-- Outer loop of `GetImplicitPermissions` step 3: over the deduplicated roles. -/
def rolePoliciesFor (m : Model) (domains : List String) : List String → List Policy
  | [] => []
  | r :: rs => domainPoliciesFor m r domains ++ rolePoliciesFor m domains rs

/-- `Enforcer.GetImplicitPermissions` (core/permission.go 387-453): direct
tuples in the domain, plus tuples of roles held in the domain (and the global
domain when the queried domain is not global), looked up in the global domain
and the queried domain. -/
def getImplicitPermissions (m : Model) (userKey domain : String) :
    Except CxError (List Permission) :=
  let userPolicies := getPermissionsForUser m userKey domain
  let allRoles := getRolesForUserInDomain m userKey domain ++
    (if domain ≠ "*" then getRolesForUserInDomain m userKey "*" else [])
  let uniqueRoles := dedupAux allRoles []
  let domainsToCheck := "*" :: (if domain ≠ "*" then [domain] else [])
  mapPerms (userPolicies ++ rolePoliciesFor m domainsToCheck uniqueRoles)

/-- Loop body of `Enforcer.GetDirectPermissions` (core/permission.go 456-482):
only matched tuples have their action parsed. -/
def getDirectPermissionsAux (userKey domain : String) :
    List Policy → Except CxError (List Permission)
  | [] => .ok []
  | q :: rest =>
    if q.subject = userKey ∧ q.domain = domain then do
      let a ← parseAction q.action
      let tail ← getDirectPermissionsAux userKey domain rest
      return ⟨q.resource, a⟩ :: tail
    else getDirectPermissionsAux userKey domain rest

/-- `Enforcer.GetDirectPermissions(userKey, domain)`. -/
def getDirectPermissions (m : Model) (userKey domain : String) :
    Except CxError (List Permission) :=
  getDirectPermissionsAux userKey domain m.policies

/-- `Enforcer.CheckPermission` (core/permission.go 367-384): membership of the
permission in the implicit permission set. -/
def checkPermission (m : Model) (subject domain : String) (p : Permission) :
    Except CxError Bool := do
  let perms ← getImplicitPermissions m subject domain
  return perms.any (fun up => up.resource == p.resource && up.action == p.action)

/-- `Enforcer.GetRolesForUser` is `GetRolesForUserInDomain`; `IsRoleAssigned`
checks membership in it (core/permission.go 487-500). -/
def isRoleAssigned (m : Model) (userKey roleKey domain : String) : Bool :=
  roleKey ∈ getRolesForUserInDomain m userKey domain

/-- `Enforcer.IsRoleInUse` (core/permission.go 519-532). -/
def isRoleInUse (m : Model) (roleKey : String) : Bool :=
  m.groupings.any (fun g => g.roleKey == roleKey)

/-- `Enforcer.GetUsersWithRole` (core/permission.go 535-550). -/
def getUsersWithRole (m : Model) (roleKey domain : String) : List String :=
  (m.groupings.filter (fun g => decide (g.roleKey = roleKey ∧ (domain = "" ∨ g.tenantKey = domain)))).map
    (·.userKey)

/-! ### Pure shadow of the Except layer, for reasoning under well-formedness -/

/-- Pure value of `GetImplicitPermissions` on a well-formed model. -/
def implicitB (m : Model) (userKey domain : String) : List Permission :=
  let userPolicies := getPermissionsForUser m userKey domain
  let allRoles := getRolesForUserInDomain m userKey domain ++
    (if domain ≠ "*" then getRolesForUserInDomain m userKey "*" else [])
  let uniqueRoles := dedupAux allRoles []
  let domainsToCheck := "*" :: (if domain ≠ "*" then [domain] else [])
  (userPolicies ++ rolePoliciesFor m domainsToCheck uniqueRoles).map permOf

/-- Pure value of `CheckPermission` on a well-formed model. -/
def checkB (m : Model) (subject domain : String) (p : Permission) : Bool :=
  (implicitB m subject domain).any (fun up => up.resource == p.resource && up.action == p.action)

/-! ### check manager (internal/check, src/unnamed/part_006) -/

/-- The core resources probed by `CanAccessTenant` step 3 (part_006 151-157). -/
def coreResources : List String := ["user", "role", "permission", "system", "tenant"]

/-- `core.AllActions`. -/
def allActions : List String := ["read", "write", "delete"]

/-- Inner loop of `CanAccessTenant` step 3: first action on the resource the
subject effectively holds wins. -/
def anyActionPermission (m : Model) (u t res : String) : List String → Except CxError Bool
  | [] => .ok false
  | a :: rest =>
    match checkPermission m u t ⟨res, a⟩ with
    | .error e => .error e
    | .ok true => .ok true
    | .ok false => anyActionPermission m u t res rest

/-- Outer loop of `CanAccessTenant` step 3 over the core resources. -/
def anyCorePermission (m : Model) (u t : String) : List String → Except CxError Bool
  | [] => .ok false
  | res :: rest =>
    match anyActionPermission m u t res allActions with
    | .error e => .error e
    | .ok true => .ok true
    | .ok false => anyCorePermission m u t rest

/-- `checkManager.CanAccessTenant` (part_006 125-175): global tenant-read,
else any role in the tenant, else any effective core-resource permission in
the tenant. -/
def canAccessTenant (m : Model) (userKey tenantKey : String) : Except CxError Bool :=
  match checkPermission m userKey "*" ⟨"tenant", "read"⟩ with
  | .error e => .error e
  | .ok true => .ok true
  | .ok false =>
    if getRolesForUserInDomain m userKey tenantKey ≠ [] then .ok true
    else anyCorePermission m userKey tenantKey coreResources

/-! ### role manager (internal/role/handler.go, src/unnamed/part_004) -/

/-- A row of the role metadata table (`roles`). -/
structure RoleMeta where
  roleKey : String
  name : String
  description : String
  tenantKey : String
  deriving DecidableEq, Repr

/-- `core.Role`. -/
structure Role where
  key : String
  name : String
  description : String
  permissions : List Permission
  tenantKey : String
  deriving DecidableEq, Repr

/-- The full engine state: casbin model, role metadata table, security config. -/
structure World where
  model : Model
  roles : List RoleMeta
  config : SecurityConfig
  deriving DecidableEq, Repr

/-- `roleManager.isRoleExistsInDB`: COUNT(*) on the roles table. -/
def isRoleExistsInDB (w : World) (roleKey : String) : Bool :=
  w.roles.any (fun r => r.roleKey == roleKey)

/-- `Permission.IsValid`: both fields non-empty. -/
def permValid (p : Permission) : Bool :=
  !(p.resource == "") && !(p.action == "")

/-- `roleManager.GetRolePermissions` (role/handler.go 232-267): requires the
key to name a role in the table, then returns its tuples across all domains
with the placeholder skipped. -/
def roleGetRolePermissionsE (w : World) (roleKey : String) : Except CxError (List Permission) :=
  if roleKey = "" then .error .invalidParameter
  else if !isRoleExistsInDB w roleKey then .error (.notAValidRole roleKey)
  else
    match getPolicies w.model roleKey "" with
    | .error e => .error e
    | .ok ps =>
      .ok ((ps.filter (fun q => decide (¬(q.resource = "_placeholder" ∧ q.action = "_none")))).map
        (fun q => (⟨q.resource, q.action⟩ : Permission)))

/-- `roleManager.HasSystemPermissions` (role/handler.go 373-403). -/
def hasSystemPermissionsE (w : World) (roleKey : String) : Except CxError Bool :=
  if roleKey = "" then .error .invalidParameter
  else if !isRoleExistsInDB w roleKey then .ok false
  else
    match roleGetRolePermissionsE w roleKey with
    | .error e => .error e
    | .ok perms => .ok (perms.any (fun p => isSystemPermission w.config p))

/-- The boolean the role manager callers use: Go discards the error
(`hasSystemPerms, _ := m.HasSystemPermissions(...)`), and every error path of
`HasSystemPermissions` returns false as the value. -/
def hasSystemPermissionsB (w : World) (roleKey : String) : Bool :=
  match hasSystemPermissionsE w roleKey with
  | .ok b => b
  | .error _ => false

/-- `roleManager.isRoleExists` (part_004 59-82): metadata table first, then
legacy fallbacks over tuples and assignments. -/
def isRoleExistsE (w : World) (roleKey : String) : Except CxError Bool :=
  if isRoleExistsInDB w roleKey then .ok true
  else
    match getPolicies w.model roleKey "" with
    | .error e => .error e
    | .ok ps => if ps ≠ [] then .ok true else .ok (isRoleInUse w.model roleKey)

/-- `roleManager.updateRoleMetadata`: sets name and description of the row. -/
def updateRoleMetadataW (w : World) (roleKey name description : String) : World :=
  { w with roles := w.roles.map (fun r =>
      if r.roleKey = roleKey then { r with name := name, description := description } else r) }

/-- `roleManager.GetRole` (role/handler.go 163-192). -/
def getRoleW (w : World) (roleKey : String) : Except CxError Role :=
  if roleKey = "" then .error .invalidParameter
  else
    match w.roles.find? (fun r => r.roleKey == roleKey) with
    | none => .error (.roleNotFound roleKey)
    | some meta =>
      match roleGetRolePermissionsE w roleKey with
      | .error e => .error e
      | .ok perms => .ok ⟨meta.roleKey, meta.name, meta.description, perms, meta.tenantKey⟩

/-- `roleManager.setRolePermissions` (part_004 8-31): clear the role tuples in
every domain, then write each valid permission into the global domain `*`;
an empty list yields the placeholder tuple in `*`. -/
def setRolePermissionsInternal (m : Model) (roleKey : String) (permissions : List Permission) :
    Except CxError Model :=
  match clearPolicies m roleKey with
  | .error e => .error e
  | .ok m1 =>
    let m2 := permissions.foldl
      (fun acc p => if permValid p then addPolicyM acc roleKey "*" p else acc) m1
    if permissions = [] then .ok (addPolicyM m2 roleKey "*" ⟨"_placeholder", "_none"⟩)
    else .ok m2

/-- `roleManager.setRolePermissionsInTenant` (part_004 33-57): same, writing
into the given tenant domain. -/
def setRolePermissionsInTenant (m : Model) (roleKey tenantKey : String)
    (permissions : List Permission) : Except CxError Model :=
  match clearPolicies m roleKey with
  | .error e => .error e
  | .ok m1 =>
    let m2 := permissions.foldl
      (fun acc p => if permValid p then addPolicyM acc roleKey tenantKey p else acc) m1
    if permissions = [] then .ok (addPolicyM m2 roleKey tenantKey ⟨"_placeholder", "_none"⟩)
    else .ok m2

/-- `roleManager.UpdateRole` (role/handler.go 90-125). -/
def roleUpdateRole (w : World) (operatorKey roleKey roleName description tenantKey : String)
    (permissions : List Permission) : Except CxError World :=
  if roleKey = "" then .error .invalidParameter
  else
    match isRoleExistsE w roleKey with
    | .error e => .error e
    | .ok false => .error (.roleNotFound roleKey)
    | .ok true =>
      if hasSystemPermissionsB w roleKey then .error .systemRoleImmutable
      else
        let w1 := if roleName ≠ "" ∨ description ≠ "" then
          updateRoleMetadataW w roleKey roleName description else w
        match setRolePermissionsInTenant w1.model roleKey tenantKey permissions with
        | .error e => .error e
        | .ok m2 => .ok { w1 with model := m2 }

/-- `roleManager.DeleteRole` (role/handler.go 128-160). -/
def roleDeleteRole (w : World) (roleKey : String) : Except CxError World :=
  if roleKey = "" then .error .invalidParameter
  else
    match isRoleExistsE w roleKey with
    | .error e => .error e
    | .ok false => .error (.roleNotFound roleKey)
    | .ok true =>
      if hasSystemPermissionsB w roleKey then .error .systemRoleImmutable
      else
        match clearPolicies w.model roleKey with
        | .error e => .error e
        | .ok m2 =>
          .ok { w with
                  model := m2
                  roles := w.roles.filter (fun r => decide (r.roleKey ≠ roleKey)) }

/-- `roleManager.GrantPermission` (role/handler.go 270-303): adds the tuple in
the role's owning tenant domain. -/
def roleGrantPermission (w : World) (operatorKey roleKey : String) (p : Permission) :
    Except CxError World :=
  if roleKey = "" ∨ p.resource = "" ∨ p.action = "" then .error .invalidParameter
  else if !isRoleExistsInDB w roleKey then .error (.notAValidRole roleKey)
  else if hasSystemPermissionsB w roleKey then .error .systemRoleImmutable
  else
    match getRoleW w roleKey with
    | .error e => .error e
    | .ok role => .ok { w with model := addPolicyM w.model roleKey role.tenantKey p }

/-- `roleManager.RevokePermission` (role/handler.go 306-339). -/
def roleRevokePermission (w : World) (operatorKey roleKey : String) (p : Permission) :
    Except CxError World :=
  if roleKey = "" ∨ p.resource = "" ∨ p.action = "" then .error .invalidParameter
  else if !isRoleExistsInDB w roleKey then .error (.notAValidRole roleKey)
  else if hasSystemPermissionsB w roleKey then .error .systemRoleImmutable
  else
    match getRoleW w roleKey with
    | .error e => .error e
    | .ok role => .ok { w with model := removePolicyM w.model roleKey role.tenantKey p }

/-- `roleManager.SetRolePermissions` (role/handler.go 342-362). -/
def roleSetRolePermissions (w : World) (roleKey : String) (permissions : List Permission) :
    Except CxError World :=
  if roleKey = "" then .error .invalidParameter
  else if !isRoleExistsInDB w roleKey then .error (.notAValidRole roleKey)
  else if hasSystemPermissionsB w roleKey then .error .systemRoleImmutable
  else
    match setRolePermissionsInternal w.model roleKey permissions with
    | .error e => .error e
    | .ok m2 => .ok { w with model := m2 }

/-- `roleManager.UserRoleHasSystemPermissions` (role/handler.go 406-432). -/
def userRoleHasSystemPermissionsE (w : World) (userKey roleKey tenantKey : String) :
    Except CxError Bool :=
  if userKey = "" ∨ roleKey = "" then .error .invalidParameter
  else if !isRoleExistsInDB w roleKey then .ok false
  else if !isRoleAssigned w.model userKey roleKey tenantKey then .ok false
  else hasSystemPermissionsE w roleKey

/-! ### user manager (src/unnamed/part_002, validators from constants.go part) -/

/-- `userManager.validateNotRole`: the subject must not name a role, by the
metadata table or by legacy grouping usage. -/
def validateNotRole (w : World) (subject : String) : Except CxError Unit :=
  if isRoleExistsInDB w subject then .error (.cannotOperateRoleDirectly subject)
  else if isRoleInUse w.model subject then .error (.cannotOperateRoleDirectly subject)
  else .ok ()

/-- `userManager.validateRoleExists`: metadata table, then legacy fallbacks. -/
def validateRoleExists (w : World) (roleKey : String) : Except CxError Unit :=
  if isRoleExistsInDB w roleKey then .ok ()
  else
    match getPolicies w.model roleKey "" with
    | .error e => .error e
    | .ok ps =>
      if ps ≠ [] then .ok ()
      else if isRoleInUse w.model roleKey then .ok ()
      else .error (.roleNotFound roleKey)

/-- `userManager.AssignRole` (part_002 89-110). -/
def userAssignRole (w : World) (operatorKey userKey roleKey tenantKey : String) :
    Except CxError World :=
  if userKey = "" ∨ roleKey = "" then .error .invalidParameter
  else
    match validateNotRole w userKey with
    | .error e => .error e
    | .ok _ =>
      match validateRoleExists w roleKey with
      | .error e => .error e
      | .ok _ => .ok { w with model := addGroupingPolicyM w.model userKey roleKey tenantKey }

/-- `userManager.RemoveRole` (part_002 113-129). -/
def userRemoveRole (w : World) (operatorKey userKey roleKey tenantKey : String) :
    Except CxError World :=
  if userKey = "" ∨ roleKey = "" then .error .invalidParameter
  else
    match validateNotRole w userKey with
    | .error e => .error e
    | .ok _ => .ok { w with model := removeGroupingPolicyM w.model userKey roleKey tenantKey }

/-! ### engine facade (engine/handler.go) -/

/-- The permission checker wired into the security validator
(`securityValidator.SetPermissionChecker(checkManager)`). -/
def worldChecker (w : World) : Checker :=
  fun u d p => checkPermission w.model u d p

/-- `permissionExists` (engine/handler.go 655-662). -/
def permissionExists (p : Permission) (permissions : List Permission) : Bool :=
  permissions.any (fun q => q.resource == p.resource && q.action == p.action)

/-- `findAddedPermissions` (engine/handler.go 665-673). -/
def findAddedPermissions (oldPermissions newPermissions : List Permission) : List Permission :=
  newPermissions.filter (fun p => !permissionExists p oldPermissions)

/-- `findRemovedPermissions` (engine/handler.go 676-684). -/
def findRemovedPermissions (oldPermissions newPermissions : List Permission) : List Permission :=
  oldPermissions.filter (fun p => !permissionExists p newPermissions)

/-- The grant-validation loop over added permissions (UpdateRole /
SetRolePermissions); each failure is wrapped. -/
def validateAllGrant (config : SecurityConfig) (checker : Option Checker)
    (operatorKey targetKey tenantKey : String) : List Permission → Except CxError Unit
  | [] => .ok ()
  | p :: rest =>
    match validatePermissionGrant config checker operatorKey targetKey tenantKey p with
    | .error e => .error (.wrapped "added role permission validation failed" e)
    | .ok _ => validateAllGrant config checker operatorKey targetKey tenantKey rest

/-- The revoke-validation loop over removed permissions. -/
def validateAllRevoke (config : SecurityConfig) (checker : Option Checker)
    (operatorKey targetKey tenantKey : String) : List Permission → Except CxError Unit
  | [] => .ok ()
  | p :: rest =>
    match validatePermissionRevoke config checker operatorKey targetKey tenantKey p with
    | .error e => .error (.wrapped "removed role permission validation failed" e)
    | .ok _ => validateAllRevoke config checker operatorKey targetKey tenantKey rest

/-- `casbinxClient.hasGlobalRoleAssignments` (engine/handler.go 578-587). -/
def hasGlobalRoleAssignments (w : World) (roleKey : String) : Bool :=
  !(getUsersWithRole w.model roleKey "*").isEmpty

/-- `casbinxClient.validateGlobalRoleOperation` (engine/handler.go 595-621). -/
def validateGlobalRoleOperation (w : World) (operatorKey roleKey : String) :
    Except CxError Unit :=
  if !hasGlobalRoleAssignments w roleKey then .ok ()
  else
    match checkPermission w.model operatorKey "*" ⟨"role", "write"⟩ with
    | .error e => .error (.wrapped "check global permission" e)
    | .ok true => .ok ()
    | .ok false => .error .globalRoleAccessDenied

/-- `casbinxClient.AssignRole` (engine/handler.go 249-283). -/
def engineAssignRole (w : World) (operatorKey userKey roleKey tenantKey : String) :
    Except CxError World :=
  match checkPermission w.model operatorKey tenantKey ⟨"user", "write"⟩ with
  | .error e => .error (.wrapped "check operator user management permission" e)
  | .ok false => .error (.noUserMgmtPermission operatorKey)
  | .ok true =>
    match checkPermission w.model operatorKey tenantKey ⟨"role", "write"⟩ with
    | .error e => .error (.wrapped "check operator role management permission" e)
    | .ok false => .error (.noRoleMgmtPermission operatorKey)
    | .ok true =>
      match hasSystemPermissionsE w roleKey with
      | .error e => .error (.wrapped "check role system permissions" e)
      | .ok true => .error .systemRoleAssignmentDenied
      | .ok false => userAssignRole w operatorKey userKey roleKey tenantKey

/-- `casbinxClient.RemoveRole` (engine/handler.go 285-319). -/
def engineRemoveRole (w : World) (operatorKey userKey roleKey tenantKey : String) :
    Except CxError World :=
  match checkPermission w.model operatorKey tenantKey ⟨"user", "write"⟩ with
  | .error e => .error (.wrapped "check operator user management permission" e)
  | .ok false => .error (.noUserMgmtPermission operatorKey)
  | .ok true =>
    match checkPermission w.model operatorKey tenantKey ⟨"role", "write"⟩ with
    | .error e => .error (.wrapped "check operator role management permission" e)
    | .ok false => .error (.noRoleMgmtPermission operatorKey)
    | .ok true =>
      match userRoleHasSystemPermissionsE w userKey roleKey tenantKey with
      | .error e => .error (.wrapped "check user role system permissions" e)
      | .ok true => .error .systemRoleRemovalDenied
      | .ok false => userRemoveRole w operatorKey userKey roleKey tenantKey

/-- `casbinxClient.UpdateRole` (engine/handler.go 378-409): global-role guard,
then diff-based validation of added and removed permissions, then the
role-manager update. -/
def engineUpdateRole (w : World) (operatorKey roleKey roleName description tenantKey : String)
    (permissions : List Permission) : Except CxError World :=
  match validateGlobalRoleOperation w operatorKey roleKey with
  | .error e => .error e
  | .ok _ =>
    match roleGetRolePermissionsE w roleKey with
    | .error e => .error (.wrapped "get old role permissions" e)
    | .ok oldPermissions =>
      let added := findAddedPermissions oldPermissions permissions
      let removed := findRemovedPermissions oldPermissions permissions
      match validateAllGrant w.config (some (worldChecker w)) operatorKey roleKey tenantKey added with
      | .error e => .error e
      | .ok _ =>
        match validateAllRevoke w.config (some (worldChecker w)) operatorKey roleKey tenantKey removed with
        | .error e => .error e
        | .ok _ => roleUpdateRole w operatorKey roleKey roleName description tenantKey permissions

/-- `casbinxClient.DeleteRole` (engine/handler.go 411-413): a plain delegation
to the role manager; no operator argument, no global-role guard. -/
def engineDeleteRole (w : World) (roleKey : String) : Except CxError World :=
  roleDeleteRole w roleKey

/-- `casbinxClient.GrantRolePermission` (engine/handler.go 427-449). -/
def engineGrantRolePermission (w : World) (operatorKey roleKey : String) (p : Permission) :
    Except CxError World :=
  match validateGlobalRoleOperation w operatorKey roleKey with
  | .error e => .error e
  | .ok _ =>
    match getRoleW w roleKey with
    | .error e => .error (.wrapped "get role info" e)
    | .ok role =>
      match validatePermissionGrant w.config (some (worldChecker w)) operatorKey roleKey
          role.tenantKey ⟨p.resource, p.action⟩ with
      | .error e => .error e
      | .ok _ => roleGrantPermission w operatorKey roleKey p

/-- `casbinxClient.RevokeRolePermission` (engine/handler.go 451-473). -/
def engineRevokeRolePermission (w : World) (operatorKey roleKey : String) (p : Permission) :
    Except CxError World :=
  match validateGlobalRoleOperation w operatorKey roleKey with
  | .error e => .error e
  | .ok _ =>
    match getRoleW w roleKey with
    | .error e => .error (.wrapped "get role info" e)
    | .ok role =>
      match validatePermissionRevoke w.config (some (worldChecker w)) operatorKey roleKey
          role.tenantKey ⟨p.resource, p.action⟩ with
      | .error e => .error e
      | .ok _ => roleRevokePermission w operatorKey roleKey p

/-- `casbinxClient.SetRolePermissions` (engine/handler.go 475-512). -/
def engineSetRolePermissions (w : World) (operatorKey roleKey : String)
    (permissions : List Permission) : Except CxError World :=
  match validateGlobalRoleOperation w operatorKey roleKey with
  | .error e => .error e
  | .ok _ =>
    match getRoleW w roleKey with
    | .error e => .error (.wrapped "get role info" e)
    | .ok role =>
      let added := findAddedPermissions role.permissions permissions
      let removed := findRemovedPermissions role.permissions permissions
      match validateAllGrant w.config (some (worldChecker w)) operatorKey roleKey
          role.tenantKey added with
      | .error e => .error e
      | .ok _ =>
        match validateAllRevoke w.config (some (worldChecker w)) operatorKey roleKey
            role.tenantKey removed with
        | .error e => .error e
        | .ok _ => roleSetRolePermissions w roleKey permissions

/-! ### isTenantInitializationScenario (engine/handler.go 624-643) -/

/-- Go slice expression `s[lo:hi]`: defined when `0 <= lo <= hi <= len(s)`,
otherwise the program panics (modelled as `none`). -/
def goSubstr (s : String) (lo hi : Int) : Option String :=
  if 0 ≤ lo ∧ lo ≤ hi ∧ hi ≤ (s.length : Int) then
    some (String.mk ((s.toList.drop lo.toNat).take (hi - lo).toNat))
  else none

/-- `casbinxClient.isTenantInitializationScenario`: `none` models a Go panic
in one of the three slice expressions, which are evaluated left to right with
short-circuiting. -/
def isTenantInitializationScenario (userKey roleKey tenantKey : String) : Option Bool :=
  if roleKey ≠ "admin" then some false
  else if tenantKey = "" ∨ tenantKey = "*" then some false
  else if ¬(userKey.length > 5) then some false
  else
    (goSubstr userKey 0 5).bind fun a =>
      if a = "admin" then some true
      else
        (goSubstr userKey ((userKey.length : Int) - 6) (userKey.length : Int)).bind fun b =>
          if b = "-admin" then some true
          else
            (goSubstr userKey ((userKey.length : Int) - 9)
                ((userKey.length : Int) - 4)).bind fun c =>
              some (c = "-admin-")

theorem parseAction_ok {s : String} (h : validAction s = true) : parseAction s = .ok s := by
  simp [parseAction, h]

theorem exbind_ok {α β : Type} (x : α) (f : α → Except CxError β) :
    (do let a ← Except.ok x; f a) = f x := rfl

theorem exbind_error {α β : Type} (e : CxError) (f : α → Except CxError β) :
    (do let a ← Except.error e; f a) = (Except.error e : Except CxError β) := rfl

theorem mem_getPermissionsForUser {m : Model} {u d : String} {q : Policy} :
    q ∈ getPermissionsForUser m u d ↔ q ∈ m.policies ∧ q.subject = u ∧ q.domain = d := by
  simp [getPermissionsForUser, List.mem_filter]

theorem mem_getRolesForUserInDomain {m : Model} {u d r : String} :
    r ∈ getRolesForUserInDomain m u d ↔
      ∃ g ∈ m.groupings, g.userKey = u ∧ g.tenantKey = d ∧ g.roleKey = r := by
  simp only [getRolesForUserInDomain, List.mem_map, List.mem_filter, decide_eq_true_eq]
  constructor
  · rintro ⟨g, ⟨hg, hu, ht⟩, hr⟩
    exact ⟨g, hg, hu, ht, hr⟩
  · rintro ⟨g, hg, hu, ht, hr⟩
    exact ⟨g, ⟨hg, hu, ht⟩, hr⟩

theorem mem_dedupAux {x : String} : ∀ {l seen : List String},
    x ∈ dedupAux l seen ↔ x ∈ l ∧ x ∉ seen := by
  intro l
  induction l with
  | nil => intro seen; simp [dedupAux]
  | cons r rs ih =>
    intro seen
    by_cases hr : r ∈ seen
    · simp only [dedupAux, if_pos hr, ih, List.mem_cons]
      constructor
      · rintro ⟨hx, hs⟩; exact ⟨Or.inr hx, hs⟩
      · rintro ⟨hx | hx, hs⟩
        · exact absurd (hx ▸ hr) hs
        · exact ⟨hx, hs⟩
    · simp only [dedupAux, if_neg hr, List.mem_cons, ih]
      constructor
      · rintro (hx | ⟨hx, hs⟩)
        · exact ⟨Or.inl hx, hx ▸ hr⟩
        · exact ⟨Or.inr hx, fun hmem => hs (Or.inr hmem)⟩
      · rintro ⟨hx | hx, hs⟩
        · exact Or.inl hx
        · by_cases hxr : x = r
          · exact Or.inl hxr
          · exact Or.inr ⟨hx, fun hmem => hmem.elim hxr hs⟩


theorem mem_domainPoliciesFor {m : Model} {r : String} {q : Policy} :
    ∀ {domains : List String},
      q ∈ domainPoliciesFor m r domains ↔ ∃ cd ∈ domains, q ∈ getPermissionsForUser m r cd := by
  intro domains
  induction domains with
  | nil => simp [domainPoliciesFor]
  | cons cd cds ih => simp [domainPoliciesFor, ih, List.mem_append]

theorem mem_rolePoliciesFor {m : Model} {domains : List String} {q : Policy} :
    ∀ {roles : List String},
      q ∈ rolePoliciesFor m domains roles ↔
        ∃ r ∈ roles, q ∈ domainPoliciesFor m r domains := by
  intro roles
  induction roles with
  | nil => simp [rolePoliciesFor]
  | cons r rs ih => simp [rolePoliciesFor, ih, List.mem_append]

theorem mapPerms_ok {l : List Policy} (h : ∀ q ∈ l, validAction q.action = true) :
    mapPerms l = .ok (l.map permOf) := by
  induction l with
  | nil => simp [mapPerms]
  | cons q rest ih =>
    have hq : validAction q.action = true := h q (List.mem_cons_self q rest)
    have hrest : ∀ x ∈ rest, validAction x.action = true :=
      fun x hx => h x (List.mem_cons_of_mem q hx)
    simp [mapPerms, parseAction_ok hq, ih hrest, exbind_ok, permOf]

theorem getPoliciesAux_ok {subject domain : String} {l : List Policy}
    (h : ∀ q ∈ l, validAction q.action = true) :
    getPoliciesAux subject domain l =
      .ok (l.filter (fun q => decide ((subject = "" ∨ q.subject = subject) ∧
        (domain = "" ∨ q.domain = domain)))) := by
  induction l with
  | nil => simp [getPoliciesAux]
  | cons q rest ih =>
    have hq : validAction q.action = true := h q (List.mem_cons_self q rest)
    have hrest : ∀ x ∈ rest, validAction x.action = true :=
      fun x hx => h x (List.mem_cons_of_mem q hx)
    by_cases hmatch : (subject = "" ∨ q.subject = subject) ∧ (domain = "" ∨ q.domain = domain)
    · simp [getPoliciesAux, parseAction_ok hq, ih hrest, exbind_ok, hmatch, List.filter]
    · simp [getPoliciesAux, parseAction_ok hq, ih hrest, exbind_ok, hmatch, List.filter]

theorem getPolicies_ok {m : Model} {subject domain : String} (h : wellFormed m = true) :
    getPolicies m subject domain =
      .ok (m.policies.filter (fun q => decide ((subject = "" ∨ q.subject = subject) ∧
        (domain = "" ∨ q.domain = domain)))) := by
  have hall : ∀ q ∈ m.policies, validAction q.action = true := by
    simpa [wellFormed, List.all_eq_true] using h
  exact getPoliciesAux_ok hall

theorem getImplicitPermissions_ok {m : Model} {userKey domain : String}
    (h : wellFormed m = true) :
    getImplicitPermissions m userKey domain = .ok (implicitB m userKey domain) := by
  have hall : ∀ q ∈ m.policies, validAction q.action = true := by
    simpa [wellFormed, List.all_eq_true] using h
  unfold getImplicitPermissions implicitB
  apply mapPerms_ok
  intro q hq
  rcases List.mem_append.mp hq with hu | hr
  · exact hall q (mem_getPermissionsForUser.mp hu).1
  · rcases mem_rolePoliciesFor.mp hr with ⟨r, _, hdom⟩
    rcases mem_domainPoliciesFor.mp hdom with ⟨cd, _, hq2⟩
    exact hall q (mem_getPermissionsForUser.mp hq2).1

theorem checkPermission_ok {m : Model} {subject domain : String} {p : Permission}
    (h : wellFormed m = true) :
    checkPermission m subject domain p = .ok (checkB m subject domain p) := by
  simp [checkPermission, getImplicitPermissions_ok h, checkB, Except.bind]

theorem mem_implicitB {m : Model} {userKey domain : String} {p : Permission} :
    p ∈ implicitB m userKey domain ↔
      (∃ q ∈ m.policies, q.subject = userKey ∧ q.domain = domain ∧ p = permOf q) ∨
      (∃ r, (r ∈ getRolesForUserInDomain m userKey domain ∨
             (domain ≠ "*" ∧ r ∈ getRolesForUserInDomain m userKey "*")) ∧
        ∃ q ∈ m.policies, q.subject = r ∧ (q.domain = domain ∨ q.domain = "*") ∧ p = permOf q) := by
  unfold implicitB
  simp only [List.mem_map, List.mem_append]
  constructor
  · rintro ⟨q, hu | hr, hperm⟩
    · rcases mem_getPermissionsForUser.mp hu with ⟨hq, hs, hd⟩
      exact Or.inl ⟨q, hq, hs, hd, hperm.symm⟩
    · rcases mem_rolePoliciesFor.mp hr with ⟨r, hrmem, hdom⟩
      rcases mem_domainPoliciesFor.mp hdom with ⟨cd, hcd, hq2⟩
      rcases mem_getPermissionsForUser.mp hq2 with ⟨hq, hs, hd⟩
      have hrsrc : r ∈ getRolesForUserInDomain m userKey domain ∨
          (domain ≠ "*" ∧ r ∈ getRolesForUserInDomain m userKey "*") := by
        have hr2 := (mem_dedupAux.mp hrmem).1
        rcases List.mem_append.mp hr2 with h1 | h2
        · exact Or.inl h1
        · by_cases hglob : domain = "*"
          · simp [hglob] at h2
          · simp only [ne_eq, hglob, not_false_iff, if_pos] at h2
            exact Or.inr ⟨hglob, h2⟩
      have hcddom : q.domain = domain ∨ q.domain = "*" := by
        rcases List.mem_cons.mp hcd with hstar | hrest
        · exact Or.inr (hd.trans hstar)
        · by_cases hglob : domain = "*"
          · simp [hglob] at hrest
          · simp only [ne_eq, hglob, not_false_iff, if_pos, List.mem_singleton] at hrest
            exact Or.inl (hd.trans hrest)
      exact Or.inr ⟨r, hrsrc, q, hq, hs, hcddom, hperm.symm⟩
  · rintro (⟨q, hq, hs, hd, hperm⟩ | ⟨r, hrsrc, q, hq, hs, hd, hperm⟩)
    · exact ⟨q, Or.inl (mem_getPermissionsForUser.mpr ⟨hq, hs, hd⟩), hperm.symm⟩
    · refine ⟨q, Or.inr ?_, hperm.symm⟩
      have hrall : r ∈ getRolesForUserInDomain m userKey domain ++
          (if domain ≠ "*" then getRolesForUserInDomain m userKey "*" else []) := by
        rcases hrsrc with h1 | h2
        · exact List.mem_append.mpr (Or.inl h1)
        · refine List.mem_append.mpr (Or.inr ?_)
          simp [h2.1, h2.2]
      refine mem_rolePoliciesFor.mpr ⟨r, mem_dedupAux.mpr ⟨hrall, List.not_mem_nil r⟩, ?_⟩
      refine mem_domainPoliciesFor.mpr ?_
      rcases hd with hdd | hdstar
      · by_cases hglob : domain = "*"
        · exact ⟨"*", List.mem_cons_self _ _,
            mem_getPermissionsForUser.mpr ⟨hq, hs, hdd.trans hglob⟩⟩
        · refine ⟨domain, ?_, mem_getPermissionsForUser.mpr ⟨hq, hs, hdd⟩⟩
          simp [hglob]
      · exact ⟨"*", List.mem_cons_self _ _, mem_getPermissionsForUser.mpr ⟨hq, hs, hdstar⟩⟩

theorem parseAction_ok_eq {s a : String} (h : parseAction s = .ok a) : a = s := by
  by_cases hv : validAction s = true
  · rw [parseAction_ok hv] at h
    cases h
    rfl
  · simp [parseAction, hv] at h

theorem getDirectPermissionsAux_ok {userKey domain : String} :
    ∀ {l : List Policy} {out : List Permission},
      getDirectPermissionsAux userKey domain l = .ok out →
      out = (l.filter (fun q => decide (q.subject = userKey ∧ q.domain = domain))).map permOf := by
  intro l
  induction l with
  | nil =>
    intro out h
    simp only [getDirectPermissionsAux] at h
    cases h
    simp
  | cons q rest ih =>
    intro out h
    by_cases hmatch : q.subject = userKey ∧ q.domain = domain
    · simp only [getDirectPermissionsAux, if_pos hmatch] at h
      cases hpa : parseAction q.action with
      | error e => simp [hpa, exbind_error] at h
      | ok a =>
        cases htail : getDirectPermissionsAux userKey domain rest with
        | error e => simp [hpa, htail, exbind_ok, exbind_error] at h
        | ok tail =>
          simp only [hpa, htail, exbind_ok, pure, Except.pure, Except.ok.injEq] at h
          have ha : a = q.action := parseAction_ok_eq hpa
          simp [List.filter, hmatch, ← h, ih htail, permOf, ha]
    · simp only [getDirectPermissionsAux, if_neg hmatch] at h
      simp [List.filter, hmatch, ih h]

/-! ### Claim C1 -/

/-- C1 (amended): for every permission in the configured SystemPermissions
set, every operator, target and domain, `ValidatePermissionGrant` and
`ValidatePermissionRevoke` return an error; the error is
`SelfElevationPrevented` when PreventSelfElevation is enabled and the
operator equals the target (the self-elevation check runs first), and
`SystemPermissionImmutable` in every other case. -/
theorem C1_system_permissions_always_denied (config : SecurityConfig) (checker : Option Checker)
    (operatorKey targetUserKey tenantKey : String) (p : Permission)
    (h : isSystemPermission config p = true) :
    validatePermissionGrant config checker operatorKey targetUserKey tenantKey p =
      .error (if config.preventSelfElevation = true ∧ operatorKey = targetUserKey
              then .selfElevationPrevented else .systemPermissionImmutable) ∧
    validatePermissionRevoke config checker operatorKey targetUserKey tenantKey p =
      .error (if config.preventSelfElevation = true ∧ operatorKey = targetUserKey
              then .selfElevationPrevented else .systemPermissionImmutable) := by
  have hmgmt : isManagementPermission config p = true := by
    simp [isManagementPermission, h]
  cases hpse : config.preventSelfElevation with
  | false =>
    have hstep : preventSelfElevationCheck config operatorKey targetUserKey p = .ok () := by
      simp [preventSelfElevationCheck, hpse]
    constructor <;>
      simp [validatePermissionGrant, validatePermissionRevoke, hstep, h, hpse]
  | true =>
    by_cases heq : operatorKey = targetUserKey
    · subst heq
      have hstep : preventSelfElevationCheck config operatorKey operatorKey p =
          .error .selfElevationPrevented := by
        simp [preventSelfElevationCheck, hpse, hmgmt]
      constructor <;>
        simp [validatePermissionGrant, validatePermissionRevoke, hstep, hpse]
    · have hstep : preventSelfElevationCheck config operatorKey targetUserKey p = .ok () := by
        simp [preventSelfElevationCheck, hpse, heq]
      constructor <;>
        simp [validatePermissionGrant, validatePermissionRevoke, hstep, h, hpse, heq]

/-- C1 witness: a system permission granted by a distinct operator is denied
with `SystemPermissionImmutable`, for both grant and revoke. -/
theorem C1_system_permissions_always_denied_witness :
    isSystemPermission defaultSecurityConfig ⟨"tenant", "write"⟩ = true ∧
    validatePermissionGrant defaultSecurityConfig none "op" "bob" "t1" ⟨"tenant", "write"⟩ =
      .error .systemPermissionImmutable ∧
    validatePermissionRevoke defaultSecurityConfig none "op" "bob" "t1" ⟨"tenant", "write"⟩ =
      .error .systemPermissionImmutable := by
  have h := C1_system_permissions_always_denied defaultSecurityConfig none "op" "bob" "t1"
    ⟨"tenant", "write"⟩ (by decide)
  rw [if_neg (by decide)] at h
  exact ⟨by decide, h.1, h.2⟩

/-- C1 counterexample: with the default configuration (PreventSelfElevation
enabled), a self-targeted grant of the system permission tenant:read fails
with `SelfElevationPrevented`, not `SystemPermissionImmutable` as the claim
states. -/
theorem C1_counterexample_self_grant :
    isSystemPermission defaultSecurityConfig ⟨"tenant", "read"⟩ = true ∧
    validatePermissionGrant defaultSecurityConfig none "alice" "alice" "t1" ⟨"tenant", "read"⟩ =
      .error .selfElevationPrevented ∧
    validatePermissionGrant defaultSecurityConfig none "alice" "alice" "t1" ⟨"tenant", "read"⟩ ≠
      .error .systemPermissionImmutable := by
  decide

/-! ### Claim C2 -/

/-- The operator-authorization step never produces `SelfElevationPrevented`. -/
theorem validateOperatorPermission_ne_sep (checker : Option Checker)
    (operatorKey domain : String) (p : Permission) :
    validateOperatorPermission checker operatorKey domain p ≠ .error .selfElevationPrevented := by
  unfold validateOperatorPermission
  cases checker with
  | none => simp
  | some ck =>
    cases hck : ck operatorKey domain ⟨"permission", "write"⟩ with
    | error e => simp [hck]
    | ok b => cases b <;> simp [hck]

/-- C2: with PreventSelfElevation enabled and operator equal to target, a
grant or revoke of a permission that is System-classified or has resource in
{permission, user, role} with action in {write, delete} fails with
`SelfElevationPrevented`; with PreventSelfElevation disabled the same calls
never produce that error (other rules may still deny them). -/
theorem C2_self_elevation_rule (config : SecurityConfig) (checker : Option Checker)
    (operatorKey targetKey tenantKey : String) (p : Permission) :
    (config.preventSelfElevation = true →
      (isSystemPermission config p = true ∨
        ((p.resource = "permission" ∨ p.resource = "user" ∨ p.resource = "role") ∧
         (p.action = "write" ∨ p.action = "delete"))) →
      validatePermissionGrant config checker operatorKey operatorKey tenantKey p =
        .error .selfElevationPrevented ∧
      validatePermissionRevoke config checker operatorKey operatorKey tenantKey p =
        .error .selfElevationPrevented) ∧
    (config.preventSelfElevation = false →
      validatePermissionGrant config checker operatorKey targetKey tenantKey p ≠
        .error .selfElevationPrevented ∧
      validatePermissionRevoke config checker operatorKey targetKey tenantKey p ≠
        .error .selfElevationPrevented) := by
  constructor
  · intro hpse hcase
    have hmgmt : isManagementPermission config p = true := by
      rcases hcase with hsys | ⟨hres, hact⟩
      · simp [isManagementPermission, hsys]
      · rcases hres with h | h | h <;> rcases hact with ha | ha <;>
          simp [isManagementPermission, h, ha]
    have hstep : preventSelfElevationCheck config operatorKey operatorKey p =
        .error .selfElevationPrevented := by
      simp [preventSelfElevationCheck, hpse, hmgmt]
    constructor <;> simp [validatePermissionGrant, validatePermissionRevoke, hstep]
  · intro hpse
    have hstep : preventSelfElevationCheck config operatorKey targetKey p = .ok () := by
      simp [preventSelfElevationCheck, hpse]
    constructor
    · simp only [validatePermissionGrant, hstep]
      by_cases hsys : isSystemPermission config p
      · simp [hsys]
      · simp [hsys, validateOperatorPermission_ne_sep]
    · simp only [validatePermissionRevoke, hstep]
      by_cases hsys : isSystemPermission config p
      · simp [hsys]
      · simp [hsys, validateOperatorPermission_ne_sep]

/-- C2 witness: self-grant of role:delete (a management permission that is
not in the default system set) is denied with `SelfElevationPrevented` when
prevention is on; with prevention off the same call is not denied by this
rule. -/
theorem C2_self_elevation_rule_witness :
    (validatePermissionGrant defaultSecurityConfig none "alice" "alice" "t1" ⟨"role", "delete"⟩ =
        .error .selfElevationPrevented ∧
      validatePermissionRevoke defaultSecurityConfig none "alice" "alice" "t1" ⟨"role", "delete"⟩ =
        .error .selfElevationPrevented) ∧
    (validatePermissionGrant ⟨false, defaultSecurityConfig.systemPermissions⟩ none
        "alice" "alice" "t1" ⟨"role", "delete"⟩ ≠ .error .selfElevationPrevented) := by
  constructor
  · exact (C2_self_elevation_rule defaultSecurityConfig none "alice" "alice" "t1"
      ⟨"role", "delete"⟩).1 (by decide) (by decide)
  · exact ((C2_self_elevation_rule ⟨false, defaultSecurityConfig.systemPermissions⟩ none
      "alice" "alice" "t1" ⟨"role", "delete"⟩).2 (by decide)).1

/-! ### Claim C7 -/

/-- C7 (amended): the default security configuration enables
PreventSelfElevation, and its SystemPermissions set contains exactly
read/write/delete on tenant, read/write/delete on system, write/delete on
user, and write/delete on permission — no role-resource permission. -/
theorem C7_default_security_config (p : Permission) :
    defaultSecurityConfig.preventSelfElevation = true ∧
    (p ∈ defaultSecurityConfig.systemPermissions ↔
      ((p.resource = "tenant" ∧ (p.action = "read" ∨ p.action = "write" ∨ p.action = "delete")) ∨
       (p.resource = "system" ∧ (p.action = "read" ∨ p.action = "write" ∨ p.action = "delete")) ∨
       (p.resource = "user" ∧ (p.action = "write" ∨ p.action = "delete")) ∨
       (p.resource = "permission" ∧ (p.action = "write" ∨ p.action = "delete")))) := by
  refine ⟨rfl, ?_⟩
  cases p with
  | mk r a =>
    simp only [defaultSecurityConfig, List.mem_cons, List.not_mem_nil, or_false,
      Permission.mk.injEq]
    constructor
    · rintro (⟨hr, ha⟩ | ⟨hr, ha⟩ | ⟨hr, ha⟩ | ⟨hr, ha⟩ | ⟨hr, ha⟩ | ⟨hr, ha⟩ |
        ⟨hr, ha⟩ | ⟨hr, ha⟩ | ⟨hr, ha⟩ | ⟨hr, ha⟩) <;> subst hr <;> subst ha <;> tauto
    · rintro (⟨hr, ha | ha | ha⟩ | ⟨hr, ha | ha | ha⟩ | ⟨hr, ha | ha⟩ | ⟨hr, ha | ha⟩) <;>
        subst hr <;> subst ha <;> tauto

/-- C7 counterexample: the claim requires write and delete on the role
resource to be system permissions by default, but neither is in the default
set. -/
theorem C7_counterexample_role_missing :
    defaultSecurityConfig.preventSelfElevation = true ∧
    (⟨"role", "write"⟩ : Permission) ∉ defaultSecurityConfig.systemPermissions ∧
    (⟨"role", "delete"⟩ : Permission) ∉ defaultSecurityConfig.systemPermissions := by
  decide

/-! ### Claim C8 -/

/-- C8 (amended): `GetDirectPermissions(subject, domain)` returns exactly the
permission tuples whose Subject and Domain match — the placeholder permission
is not filtered out; it is returned like any other tuple. -/
theorem C8_direct_permissions_exact (m : Model) (userKey domain : String)
    (out : List Permission) (h : getDirectPermissions m userKey domain = .ok out)
    (p : Permission) :
    p ∈ out ↔ ∃ q ∈ m.policies, q.subject = userKey ∧ q.domain = domain ∧ p = permOf q := by
  have hout := getDirectPermissionsAux_ok h
  subst hout
  simp only [List.mem_map, List.mem_filter, decide_eq_true_eq]
  constructor
  · rintro ⟨q, ⟨hq, hs, hd⟩, hperm⟩
    exact ⟨q, hq, hs, hd, hperm.symm⟩
  · rintro ⟨q, hq, hs, hd, hperm⟩
    exact ⟨q, ⟨hq, hs, hd⟩, hperm.symm⟩

/-- C8 witness: on a store holding a document tuple and a placeholder tuple
for the subject, the returned list is characterized by the membership
equivalence of the theorem. -/
theorem C8_direct_permissions_exact_witness :
    getDirectPermissions ⟨[⟨"u", "t", "document", "read"⟩, ⟨"u", "t", "_placeholder", "_none"⟩],
        []⟩ "u" "t" =
      .ok [⟨"document", "read"⟩, ⟨"_placeholder", "_none"⟩] ∧
    ((⟨"document", "read"⟩ : Permission) ∈
        [(⟨"document", "read"⟩ : Permission), ⟨"_placeholder", "_none"⟩] ↔
      ∃ q ∈ [(⟨"u", "t", "document", "read"⟩ : Policy), ⟨"u", "t", "_placeholder", "_none"⟩],
        q.subject = "u" ∧ q.domain = "t" ∧ (⟨"document", "read"⟩ : Permission) = permOf q) :=
  ⟨by decide,
   C8_direct_permissions_exact
     ⟨[⟨"u", "t", "document", "read"⟩, ⟨"u", "t", "_placeholder", "_none"⟩], []⟩
     "u" "t" [⟨"document", "read"⟩, ⟨"_placeholder", "_none"⟩] (by decide)
     ⟨"document", "read"⟩⟩

/-- C8 counterexample: the claim says the placeholder permission is excluded
from the result, but `GetDirectPermissions` returns it: on a store whose only
tuple for (u, t) is the placeholder, the result is the placeholder itself,
not the empty list. -/
theorem C8_counterexample_placeholder_returned :
    getDirectPermissions ⟨[⟨"u", "t", "_placeholder", "_none"⟩], []⟩ "u" "t" =
      .ok [⟨"_placeholder", "_none"⟩] ∧
    (⟨"_placeholder", "_none"⟩ : Permission) ∈ [(⟨"_placeholder", "_none"⟩ : Permission)] := by
  decide

/-! ### Claim C10 -/

/-- C10: `isTenantInitializationScenario` panics (modelled as `none`) whenever
roleKey is "admin", tenantKey is a proper tenant, and userKey has length 6, 7
or 8 without the "admin" prefix or the "-admin" suffix: the third slice
expression has negative start index `len(userKey)-9`. -/
theorem C10_tenant_init_scenario_panics (userKey tenantKey : String)
    (ht1 : tenantKey ≠ "") (ht2 : tenantKey ≠ "*")
    (hlen : userKey.length = 6 ∨ userKey.length = 7 ∨ userKey.length = 8)
    (hpre : String.mk (userKey.toList.take 5) ≠ "admin")
    (hsuf : String.mk ((userKey.toList.drop (userKey.length - 6)).take 6) ≠ "-admin") :
    isTenantInitializationScenario userKey "admin" tenantKey = none := by
  have hlb : 6 ≤ userKey.length := by rcases hlen with h | h | h <;> omega
  have hub : userKey.length ≤ 8 := by rcases hlen with h | h | h <;> omega
  have hg1 : goSubstr userKey 0 5 = some (String.mk (userKey.toList.take 5)) := by
    unfold goSubstr
    rw [if_pos (by omega)]
    norm_num
    rfl
  have hg2 : goSubstr userKey ((userKey.length : Int) - 6) (userKey.length : Int) =
      some (String.mk ((userKey.toList.drop (userKey.length - 6)).take 6)) := by
    unfold goSubstr
    rw [if_pos (by omega)]
    have e1 : ((userKey.length : Int) - 6).toNat = userKey.length - 6 := by omega
    have e2 : ((userKey.length : Int) - ((userKey.length : Int) - 6)).toNat = 6 := by omega
    rw [e1, e2]
  have hg3 : goSubstr userKey ((userKey.length : Int) - 9) ((userKey.length : Int) - 4) =
      none := by
    unfold goSubstr
    rw [if_neg]
    rintro ⟨hc, -⟩
    omega
  unfold isTenantInitializationScenario
  rw [if_neg (by simp)]
  rw [if_neg (by rintro (hc | hc) <;> [exact ht1 hc; exact ht2 hc])]
  rw [if_neg (by omega)]
  rw [hg1]
  simp only [Option.some_bind]
  rw [if_neg hpre, hg2]
  simp only [Option.some_bind]
  rw [if_neg hsuf, hg3]
  simp only [Option.none_bind]

/-- C10 witness: the concrete input userKey="user01", tenantKey="t1"
satisfies all the hypotheses and makes the function panic. -/
theorem C10_tenant_init_scenario_panics_witness :
    ("t1" ≠ "" ∧ "t1" ≠ "*" ∧ ("user01".length = 6 ∨ "user01".length = 7 ∨ "user01".length = 8) ∧
      String.mk ("user01".toList.take 5) ≠ "admin" ∧
      String.mk (("user01".toList.drop ("user01".length - 6)).take 6) ≠ "-admin") ∧
    isTenantInitializationScenario "user01" "admin" "t1" = none :=
  ⟨⟨by decide, by decide, Or.inl (by decide), by decide, by decide⟩,
   C10_tenant_init_scenario_panics "user01" "t1" (by decide) (by decide) (Or.inl (by decide))
     (by decide) (by decide)⟩

/-! ### Claim C3 -/

/-- C3: on a well-formed store, `GetImplicitPermissions(u, d)` succeeds and
equals (as a set) the union of the subject's direct tuples in d with, for
every role held in d (or, when d is not the global domain, held globally),
that role's tuples visible in d and in the global domain; in particular it
contains every direct permission and, for every role the subject holds, all
of that role's permissions in d and in the global domain. -/
theorem C3_effective_permissions_union (m : Model) (u d : String)
    (hwf : wellFormed m = true) :
    ∃ ps, getImplicitPermissions m u d = .ok ps ∧
      (∀ p, p ∈ ps ↔
        ((∃ q ∈ m.policies, q.subject = u ∧ q.domain = d ∧ p = permOf q) ∨
         (∃ r, (r ∈ getRolesForUserInDomain m u d ∨
                (d ≠ "*" ∧ r ∈ getRolesForUserInDomain m u "*")) ∧
           ∃ q ∈ m.policies, q.subject = r ∧ (q.domain = d ∨ q.domain = "*") ∧
             p = permOf q))) ∧
      (∀ l, getDirectPermissions m u d = .ok l → ∀ p ∈ l, p ∈ ps) ∧
      (∀ r, (r ∈ getRolesForUserInDomain m u d ∨ r ∈ getRolesForUserInDomain m u "*") →
        ∀ q ∈ m.policies, q.subject = r → (q.domain = d ∨ q.domain = "*") →
          permOf q ∈ ps) := by
  refine ⟨implicitB m u d, getImplicitPermissions_ok hwf, fun p => mem_implicitB, ?_, ?_⟩
  · intro l hl p hp
    have hout := getDirectPermissionsAux_ok hl
    subst hout
    rcases List.mem_map.mp hp with ⟨q, hq, hperm⟩
    rcases List.mem_filter.mp hq with ⟨hqm, hcond⟩
    rcases of_decide_eq_true hcond with ⟨hs, hd⟩
    exact mem_implicitB.mpr (Or.inl ⟨q, hqm, hs, hd, hperm.symm⟩)
  · intro r hr q hq hs hd
    refine mem_implicitB.mpr (Or.inr ⟨r, ?_, q, hq, hs, hd, rfl⟩)
    by_cases hglob : d = "*"
    · subst hglob
      rcases hr with h1 | h1 <;> exact Or.inl h1
    · rcases hr with h1 | h1
      · exact Or.inl h1
      · exact Or.inr ⟨hglob, h1⟩

/-- C3 witness: a store where user u has a direct document:read tuple in t1
and a global role carrying report:read; both appear in the effective
permissions of u in t1. -/
theorem C3_effective_permissions_union_witness :
    wellFormed ⟨[⟨"u", "t1", "document", "read"⟩, ⟨"R", "*", "report", "read"⟩],
        [⟨"u", "R", "*"⟩]⟩ = true ∧
    ∃ ps, getImplicitPermissions ⟨[⟨"u", "t1", "document", "read"⟩, ⟨"R", "*", "report", "read"⟩],
        [⟨"u", "R", "*"⟩]⟩ "u" "t1" = .ok ps ∧
      (∀ p, p ∈ ps ↔
        ((∃ q ∈ [(⟨"u", "t1", "document", "read"⟩ : Policy), ⟨"R", "*", "report", "read"⟩],
            q.subject = "u" ∧ q.domain = "t1" ∧ p = permOf q) ∨
         (∃ r, (r ∈ getRolesForUserInDomain ⟨[⟨"u", "t1", "document", "read"⟩,
                  ⟨"R", "*", "report", "read"⟩], [⟨"u", "R", "*"⟩]⟩ "u" "t1" ∨
                ("t1" ≠ "*" ∧ r ∈ getRolesForUserInDomain ⟨[⟨"u", "t1", "document", "read"⟩,
                  ⟨"R", "*", "report", "read"⟩], [⟨"u", "R", "*"⟩]⟩ "u" "*")) ∧
           ∃ q ∈ [(⟨"u", "t1", "document", "read"⟩ : Policy), ⟨"R", "*", "report", "read"⟩],
             q.subject = r ∧ (q.domain = "t1" ∨ q.domain = "*") ∧ p = permOf q))) ∧
      (∀ l, getDirectPermissions ⟨[⟨"u", "t1", "document", "read"⟩,
          ⟨"R", "*", "report", "read"⟩], [⟨"u", "R", "*"⟩]⟩ "u" "t1" = .ok l →
        ∀ p ∈ l, p ∈ ps) ∧
      (∀ r, (r ∈ getRolesForUserInDomain ⟨[⟨"u", "t1", "document", "read"⟩,
              ⟨"R", "*", "report", "read"⟩], [⟨"u", "R", "*"⟩]⟩ "u" "t1" ∨
             r ∈ getRolesForUserInDomain ⟨[⟨"u", "t1", "document", "read"⟩,
              ⟨"R", "*", "report", "read"⟩], [⟨"u", "R", "*"⟩]⟩ "u" "*") →
        ∀ q ∈ [(⟨"u", "t1", "document", "read"⟩ : Policy), ⟨"R", "*", "report", "read"⟩],
          q.subject = r → (q.domain = "t1" ∨ q.domain = "*") → permOf q ∈ ps) :=
  ⟨by decide,
   C3_effective_permissions_union ⟨[⟨"u", "t1", "document", "read"⟩,
     ⟨"R", "*", "report", "read"⟩], [⟨"u", "R", "*"⟩]⟩ "u" "t1" (by decide)⟩

/-! ### Claims C4 and C5 -/

/-- When the role manager observes `hasSystemPerms = true`, the underlying
call necessarily succeeded with `true` (error paths return `false`). -/
theorem hasSystemPermissionsB_eq_true {w : World} {roleKey : String}
    (h : hasSystemPermissionsB w roleKey = true) :
    hasSystemPermissionsE w roleKey = .ok true := by
  unfold hasSystemPermissionsB at h
  cases he : hasSystemPermissionsE w roleKey with
  | ok b => rw [he] at h; simp at h; rw [h]
  | error e => rw [he] at h; simp at h

/-- C4 (amended): for a role in the metadata table whose permission set
contains a System permission, the role-manager operations UpdateRole,
DeleteRole, GrantPermission, RevokePermission and SetRolePermissions fail
with `SystemRoleImmutable` for every operator and tenant; engine `AssignRole`
fails with `SystemRoleAssignmentDenied` provided the operator holds
user-write and role-write in the tenant; engine `RemoveRole` fails with
`SystemRoleRemovalDenied` provided additionally the target user actually
holds the role in that tenant. -/
theorem C4_system_role_operations_denied (w : World)
    (operatorKey userKey roleKey roleName description tenantKey : String)
    (permissions : List Permission) (p : Permission)
    (hne : roleKey ≠ "") (hdb : isRoleExistsInDB w roleKey = true)
    (hsys : hasSystemPermissionsB w roleKey = true) :
    roleUpdateRole w operatorKey roleKey roleName description tenantKey permissions =
      .error .systemRoleImmutable ∧
    roleDeleteRole w roleKey = .error .systemRoleImmutable ∧
    (p.resource ≠ "" → p.action ≠ "" →
      roleGrantPermission w operatorKey roleKey p = .error .systemRoleImmutable ∧
      roleRevokePermission w operatorKey roleKey p = .error .systemRoleImmutable) ∧
    roleSetRolePermissions w roleKey permissions = .error .systemRoleImmutable ∧
    (checkPermission w.model operatorKey tenantKey ⟨"user", "write"⟩ = .ok true →
     checkPermission w.model operatorKey tenantKey ⟨"role", "write"⟩ = .ok true →
      engineAssignRole w operatorKey userKey roleKey tenantKey =
        .error .systemRoleAssignmentDenied ∧
      (userKey ≠ "" → isRoleAssigned w.model userKey roleKey tenantKey = true →
        engineRemoveRole w operatorKey userKey roleKey tenantKey =
          .error .systemRoleRemovalDenied)) := by
  have hex : isRoleExistsE w roleKey = .ok true := by
    simp [isRoleExistsE, hdb]
  refine ⟨?_, ?_, ?_, ?_, ?_⟩
  · simp [roleUpdateRole, hne, hex, hsys]
  · simp [roleDeleteRole, hne, hex, hsys]
  · intro hres hact
    constructor
    · simp [roleGrantPermission, hne, hres, hact, hdb, hsys]
    · simp [roleRevokePermission, hne, hres, hact, hdb, hsys]
  · simp [roleSetRolePermissions, hne, hdb, hsys]
  · intro hc1 hc2
    have hse := hasSystemPermissionsB_eq_true hsys
    constructor
    · simp [engineAssignRole, hc1, hc2, hse]
    · intro hu hassigned
      have hur : userRoleHasSystemPermissionsE w userKey roleKey tenantKey = .ok true := by
        simp [userRoleHasSystemPermissionsE, hu, hne, hdb, hassigned, hse]
      simp [engineRemoveRole, hc1, hc2, hur]

/-- C4 witness: a concrete world with a system-tagged role, an authorized
operator and a user holding the role, on which all six operations are
denied with the corresponding error. -/
theorem C4_system_role_operations_denied_witness :
    (("sys" : String) ≠ "" ∧
     isRoleExistsInDB ⟨⟨[⟨"sys", "*", "tenant", "write"⟩, ⟨"op", "t1", "user", "write"⟩,
         ⟨"op", "t1", "role", "write"⟩], [⟨"bob", "sys", "t1"⟩]⟩,
       [⟨"sys", "Sys", "", "t1"⟩], defaultSecurityConfig⟩ "sys" = true ∧
     hasSystemPermissionsB ⟨⟨[⟨"sys", "*", "tenant", "write"⟩, ⟨"op", "t1", "user", "write"⟩,
         ⟨"op", "t1", "role", "write"⟩], [⟨"bob", "sys", "t1"⟩]⟩,
       [⟨"sys", "Sys", "", "t1"⟩], defaultSecurityConfig⟩ "sys" = true) ∧
    (roleUpdateRole ⟨⟨[⟨"sys", "*", "tenant", "write"⟩, ⟨"op", "t1", "user", "write"⟩,
         ⟨"op", "t1", "role", "write"⟩], [⟨"bob", "sys", "t1"⟩]⟩,
       [⟨"sys", "Sys", "", "t1"⟩], defaultSecurityConfig⟩ "op" "sys" "n" "d" "t1" [] =
      .error .systemRoleImmutable ∧
     engineAssignRole ⟨⟨[⟨"sys", "*", "tenant", "write"⟩, ⟨"op", "t1", "user", "write"⟩,
         ⟨"op", "t1", "role", "write"⟩], [⟨"bob", "sys", "t1"⟩]⟩,
       [⟨"sys", "Sys", "", "t1"⟩], defaultSecurityConfig⟩ "op" "alice" "sys" "t1" =
      .error .systemRoleAssignmentDenied ∧
     engineRemoveRole ⟨⟨[⟨"sys", "*", "tenant", "write"⟩, ⟨"op", "t1", "user", "write"⟩,
         ⟨"op", "t1", "role", "write"⟩], [⟨"bob", "sys", "t1"⟩]⟩,
       [⟨"sys", "Sys", "", "t1"⟩], defaultSecurityConfig⟩ "op" "bob" "sys" "t1" =
      .error .systemRoleRemovalDenied) := by
  have h := C4_system_role_operations_denied
    ⟨⟨[⟨"sys", "*", "tenant", "write"⟩, ⟨"op", "t1", "user", "write"⟩,
       ⟨"op", "t1", "role", "write"⟩], [⟨"bob", "sys", "t1"⟩]⟩,
     [⟨"sys", "Sys", "", "t1"⟩], defaultSecurityConfig⟩
    "op" "bob" "sys" "n" "d" "t1" [] ⟨"x", "read"⟩ (by decide) (by decide) (by decide)
  have h2 := C4_system_role_operations_denied
    ⟨⟨[⟨"sys", "*", "tenant", "write"⟩, ⟨"op", "t1", "user", "write"⟩,
       ⟨"op", "t1", "role", "write"⟩], [⟨"bob", "sys", "t1"⟩]⟩,
     [⟨"sys", "Sys", "", "t1"⟩], defaultSecurityConfig⟩
    "op" "alice" "sys" "n" "d" "t1" [] ⟨"x", "read"⟩ (by decide) (by decide) (by decide)
  refine ⟨⟨by decide, by decide, by decide⟩, h.1, ?_, ?_⟩
  · exact (h2.2.2.2.2 (by decide) (by decide)).1
  · exact (h.2.2.2.2 (by decide) (by decide)).2 (by decide) (by decide)

/-- C4 counterexample: the claim quantifies over every operator, user and
tenant, but `RemoveRole` of a system-tagged role succeeds (as a no-op) when
the target user does not hold the role: the call returns the unchanged world,
not `SystemRoleRemovalDenied`. -/
theorem C4_counterexample_remove_role_noop :
    hasSystemPermissionsB ⟨⟨[⟨"sys", "*", "tenant", "write"⟩, ⟨"op", "t1", "user", "write"⟩,
        ⟨"op", "t1", "role", "write"⟩], []⟩,
      [⟨"sys", "Sys", "", "t1"⟩], defaultSecurityConfig⟩ "sys" = true ∧
    engineRemoveRole ⟨⟨[⟨"sys", "*", "tenant", "write"⟩, ⟨"op", "t1", "user", "write"⟩,
        ⟨"op", "t1", "role", "write"⟩], []⟩,
      [⟨"sys", "Sys", "", "t1"⟩], defaultSecurityConfig⟩ "op" "alice" "sys" "t1" =
      .ok ⟨⟨[⟨"sys", "*", "tenant", "write"⟩, ⟨"op", "t1", "user", "write"⟩,
        ⟨"op", "t1", "role", "write"⟩], []⟩,
      [⟨"sys", "Sys", "", "t1"⟩], defaultSecurityConfig⟩ := by
  decide

/-- C5 (amended): for UpdateRole, GrantRolePermission, RevokeRolePermission
and SetRolePermissions at the engine layer, a role with at least one global
grouping tuple can only be changed by an operator who effectively holds
role-write in the global domain; otherwise the operation fails with
`GlobalRoleAccessDenied`.  (DeleteRole performs no such check.) -/
theorem C5_global_role_guard (w : World)
    (operatorKey roleKey roleName description tenantKey : String)
    (permissions : List Permission) (p : Permission)
    (hglob : hasGlobalRoleAssignments w roleKey = true)
    (hperm : checkPermission w.model operatorKey "*" ⟨"role", "write"⟩ = .ok false) :
    engineUpdateRole w operatorKey roleKey roleName description tenantKey permissions =
      .error .globalRoleAccessDenied ∧
    engineGrantRolePermission w operatorKey roleKey p = .error .globalRoleAccessDenied ∧
    engineRevokeRolePermission w operatorKey roleKey p = .error .globalRoleAccessDenied ∧
    engineSetRolePermissions w operatorKey roleKey permissions =
      .error .globalRoleAccessDenied := by
  have hguard : validateGlobalRoleOperation w operatorKey roleKey =
      .error .globalRoleAccessDenied := by
    simp [validateGlobalRoleOperation, hglob, hperm]
  exact ⟨by simp [engineUpdateRole, hguard], by simp [engineGrantRolePermission, hguard],
    by simp [engineRevokeRolePermission, hguard], by simp [engineSetRolePermissions, hguard]⟩

/-- C5 witness: on a world whose role g1 is assigned to alice in the global
domain and whose operator holds no global role-write, all four guarded
operations are denied. -/
theorem C5_global_role_guard_witness :
    (hasGlobalRoleAssignments ⟨⟨[⟨"g1", "t1", "document", "read"⟩], [⟨"alice", "g1", "*"⟩]⟩,
        [⟨"g1", "G1", "", "t1"⟩], defaultSecurityConfig⟩ "g1" = true ∧
     checkPermission ⟨[⟨"g1", "t1", "document", "read"⟩], [⟨"alice", "g1", "*"⟩]⟩
        "op" "*" ⟨"role", "write"⟩ = .ok false) ∧
    engineUpdateRole ⟨⟨[⟨"g1", "t1", "document", "read"⟩], [⟨"alice", "g1", "*"⟩]⟩,
        [⟨"g1", "G1", "", "t1"⟩], defaultSecurityConfig⟩ "op" "g1" "n" "d" "t1" [] =
      .error .globalRoleAccessDenied ∧
    engineSetRolePermissions ⟨⟨[⟨"g1", "t1", "document", "read"⟩], [⟨"alice", "g1", "*"⟩]⟩,
        [⟨"g1", "G1", "", "t1"⟩], defaultSecurityConfig⟩ "op" "g1" [] =
      .error .globalRoleAccessDenied := by
  have h := C5_global_role_guard
    ⟨⟨[⟨"g1", "t1", "document", "read"⟩], [⟨"alice", "g1", "*"⟩]⟩,
     [⟨"g1", "G1", "", "t1"⟩], defaultSecurityConfig⟩
    "op" "g1" "n" "d" "t1" [] ⟨"x", "read"⟩ (by decide) (by decide)
  exact ⟨⟨by decide, by decide⟩, h.1, h.2.2.2⟩

/-- C5 counterexample: the claim covers role deletion, but `DeleteRole` takes
no operator and performs no global-role check: on a world where g1 has a
global grouping tuple and nobody holds global role-write, deleting g1
succeeds instead of failing with `GlobalRoleAccessDenied`. -/
theorem C5_counterexample_delete_unguarded :
    hasGlobalRoleAssignments ⟨⟨[⟨"g1", "t1", "document", "read"⟩], [⟨"alice", "g1", "*"⟩]⟩,
      [⟨"g1", "G1", "", "t1"⟩], defaultSecurityConfig⟩ "g1" = true ∧
    checkB ⟨[⟨"g1", "t1", "document", "read"⟩], [⟨"alice", "g1", "*"⟩]⟩
      "alice" "*" ⟨"role", "write"⟩ = false ∧
    engineDeleteRole ⟨⟨[⟨"g1", "t1", "document", "read"⟩], [⟨"alice", "g1", "*"⟩]⟩,
      [⟨"g1", "G1", "", "t1"⟩], defaultSecurityConfig⟩ "g1" =
      .ok ⟨⟨[], [⟨"alice", "g1", "*"⟩]⟩, [], defaultSecurityConfig⟩ := by
  decide

/-! ### Claim C6 -/

/-- Pure value of `CanAccessTenant` on a well-formed model. -/
def canB (m : Model) (u t : String) : Bool :=
  checkB m u "*" ⟨"tenant", "read"⟩ || decide (getRolesForUserInDomain m u t ≠ []) ||
  coreResources.any (fun res => allActions.any (fun a => checkB m u t ⟨res, a⟩))

theorem anyActionPermission_ok {m : Model} {u t res : String} (hwf : wellFormed m = true) :
    ∀ (as : List String),
      anyActionPermission m u t res as = .ok (as.any (fun a => checkB m u t ⟨res, a⟩)) := by
  intro as
  induction as with
  | nil => simp [anyActionPermission]
  | cons a rest ih =>
    simp only [anyActionPermission, checkPermission_ok hwf]
    cases hb : checkB m u t ⟨res, a⟩ with
    | true => simp [hb]
    | false => simp [hb, ih]

theorem anyCorePermission_ok {m : Model} {u t : String} (hwf : wellFormed m = true) :
    ∀ (rs : List String),
      anyCorePermission m u t rs =
        .ok (rs.any (fun res => allActions.any (fun a => checkB m u t ⟨res, a⟩))) := by
  intro rs
  induction rs with
  | nil => simp [anyCorePermission]
  | cons res rest ih =>
    simp only [anyCorePermission, anyActionPermission_ok hwf]
    cases hb : allActions.any (fun a => checkB m u t ⟨res, a⟩) with
    | true => simp [hb]
    | false => simp [hb, ih]

theorem canAccessTenant_ok {m : Model} {u t : String} (hwf : wellFormed m = true) :
    canAccessTenant m u t = .ok (canB m u t) := by
  unfold canAccessTenant canB
  rw [checkPermission_ok hwf]
  cases hb : checkB m u "*" ⟨"tenant", "read"⟩ with
  | true => simp [hb]
  | false =>
    simp only [hb, Bool.false_or]
    by_cases hroles : getRolesForUserInDomain m u t = []
    · simp [hroles, anyCorePermission_ok hwf]
    · simp [hroles]

theorem wellFormed_addGroupingPolicyM {m : Model} {u r d : String} :
    wellFormed (addGroupingPolicyM m u r d) = wellFormed m := by
  by_cases h : (⟨u, r, d⟩ : GroupingPolicy) ∈ m.groupings <;>
    simp [addGroupingPolicyM, wellFormed, h]

theorem wellFormed_addPolicyM {m : Model} {s d : String} {p : Permission}
    (hwf : wellFormed m = true) (hv : validAction p.action = true) :
    wellFormed (addPolicyM m s d p) = true := by
  simp only [wellFormed] at hwf
  by_cases h : (⟨s, d, p.resource, p.action⟩ : Policy) ∈ m.policies <;>
    simp [addPolicyM, wellFormed, h, List.all_append, hwf, hv]

theorem mem_groupings_addGroupingPolicyM {m : Model} {u r d : String} :
    (⟨u, r, d⟩ : GroupingPolicy) ∈ (addGroupingPolicyM m u r d).groupings := by
  by_cases h : (⟨u, r, d⟩ : GroupingPolicy) ∈ m.groupings <;>
    simp [addGroupingPolicyM, h]

theorem mem_policies_addPolicyM {m : Model} {s d : String} {p : Permission} :
    (⟨s, d, p.resource, p.action⟩ : Policy) ∈ (addPolicyM m s d p).policies := by
  by_cases h : (⟨s, d, p.resource, p.action⟩ : Policy) ∈ m.policies <;>
    simp [addPolicyM, h]

/-- C6 (amended): on a well-formed store, (i) `CanAccessTenant(u, t)` is false
when u has no permission tuple in t, no role grouping in t or the global
domain, and does not effectively hold global tenant-read; (ii) it becomes
true immediately after assigning u any role in t; (iii) it becomes true
immediately after granting u a core-resource permission in t; (iv) it is true
exactly when u effectively holds global tenant-read, or has a role in t, or
effectively holds some permission on a core resource in t. -/
theorem C6_can_access_tenant (m : Model) (u t : String) (hwf : wellFormed m = true) :
    ((∀ q ∈ m.policies, ¬(q.subject = u ∧ q.domain = t)) →
     (∀ g ∈ m.groupings, ¬(g.userKey = u ∧ (g.tenantKey = t ∨ g.tenantKey = "*"))) →
     checkB m u "*" ⟨"tenant", "read"⟩ = false →
     canAccessTenant m u t = .ok false) ∧
    (∀ r, canAccessTenant (addGroupingPolicyM m u r t) u t = .ok true) ∧
    (∀ res a, res ∈ coreResources → a ∈ allActions →
      canAccessTenant (addPolicyM m u t ⟨res, a⟩) u t = .ok true) ∧
    (canAccessTenant m u t = .ok true ↔
      (checkB m u "*" ⟨"tenant", "read"⟩ = true ∨
       getRolesForUserInDomain m u t ≠ [] ∨
       ∃ res ∈ coreResources, ∃ a ∈ allActions, checkB m u t ⟨res, a⟩ = true)) := by
  refine ⟨?_, ?_, ?_, ?_⟩
  · intro h1 h2 h3
    have hroles_t : getRolesForUserInDomain m u t = [] := by
      unfold getRolesForUserInDomain
      rw [List.filter_eq_nil.mpr]
      · rfl
      · intro g hg
        simp only [decide_eq_true_eq, not_and]
        intro hu ht
        exact h2 g hg ⟨hu, Or.inl ht⟩
    have hroles_g : getRolesForUserInDomain m u "*" = [] := by
      unfold getRolesForUserInDomain
      rw [List.filter_eq_nil.mpr]
      · rfl
      · intro g hg
        simp only [decide_eq_true_eq, not_and]
        intro hu ht
        exact h2 g hg ⟨hu, Or.inr ht⟩
    have hdirect : getPermissionsForUser m u t = [] := by
      unfold getPermissionsForUser
      rw [List.filter_eq_nil.mpr]
      intro q hq
      simp only [decide_eq_true_eq]
      exact h1 q hq
    have hglobempty : (if t ≠ "*" then getRolesForUserInDomain m u "*" else []) = [] := by
      rw [hroles_g]; split <;> rfl
    have himpl : implicitB m u t = [] := by
      unfold implicitB
      rw [hdirect, hroles_t, hglobempty]
      rfl
    have hcheckfalse : ∀ p, checkB m u t p = false := by
      intro p
      simp [checkB, himpl]
    rw [canAccessTenant_ok hwf]
    simp [canB, h3, hroles_t, hcheckfalse]
  · intro r
    have hwf2 : wellFormed (addGroupingPolicyM m u r t) = true := by
      rw [wellFormed_addGroupingPolicyM]; exact hwf
    rw [canAccessTenant_ok hwf2]
    have hr : r ∈ getRolesForUserInDomain (addGroupingPolicyM m u r t) u t :=
      mem_getRolesForUserInDomain.mpr ⟨⟨u, r, t⟩, mem_groupings_addGroupingPolicyM, rfl, rfl, rfl⟩
    have : getRolesForUserInDomain (addGroupingPolicyM m u r t) u t ≠ [] :=
      List.ne_nil_of_mem hr
    simp [canB, this]
  · intro res a hres ha
    have hva : validAction a = true := by
      simp only [allActions, List.mem_cons, List.not_mem_nil, or_false] at ha
      rcases ha with h | h | h <;> subst h <;> decide
    have hwf2 : wellFormed (addPolicyM m u t ⟨res, a⟩) = true :=
      wellFormed_addPolicyM hwf hva
    rw [canAccessTenant_ok hwf2]
    have hq : (⟨u, t, res, a⟩ : Policy) ∈ (addPolicyM m u t ⟨res, a⟩).policies :=
      mem_policies_addPolicyM
    have hcheck : checkB (addPolicyM m u t ⟨res, a⟩) u t ⟨res, a⟩ = true := by
      have hp : (⟨res, a⟩ : Permission) ∈ implicitB (addPolicyM m u t ⟨res, a⟩) u t :=
        mem_implicitB.mpr (Or.inl ⟨⟨u, t, res, a⟩, hq, rfl, rfl, rfl⟩)
      simp only [checkB, List.any_eq_true]
      exact ⟨⟨res, a⟩, hp, by simp⟩
    have hb3 : coreResources.any
        (fun res2 => allActions.any
          (fun a2 => checkB (addPolicyM m u t ⟨res, a⟩) u t ⟨res2, a2⟩)) = true :=
      List.any_eq_true.mpr ⟨res, hres, List.any_eq_true.mpr ⟨a, ha, hcheck⟩⟩
    simp [canB, hb3]
  · rw [canAccessTenant_ok hwf]
    simp only [Except.ok.injEq, canB, Bool.or_eq_true, decide_eq_true_eq, List.any_eq_true]
    tauto

/-- C6 witness: exercises all four parts of the theorem on a store where u
has only a grouping in t2 for an unrelated role. -/
theorem C6_can_access_tenant_witness :
    wellFormed ⟨[⟨"R", "t2", "document", "read"⟩], [⟨"u", "R", "t2"⟩]⟩ = true ∧
    canAccessTenant ⟨[⟨"R", "t2", "document", "read"⟩], [⟨"u", "R", "t2"⟩]⟩ "u" "t1" =
      .ok false ∧
    canAccessTenant
      (addGroupingPolicyM ⟨[⟨"R", "t2", "document", "read"⟩], [⟨"u", "R", "t2"⟩]⟩ "u" "R" "t1")
      "u" "t1" = .ok true ∧
    canAccessTenant
      (addPolicyM ⟨[⟨"R", "t2", "document", "read"⟩], [⟨"u", "R", "t2"⟩]⟩ "u" "t1"
        ⟨"user", "write"⟩) "u" "t1" = .ok true := by
  have h := C6_can_access_tenant ⟨[⟨"R", "t2", "document", "read"⟩], [⟨"u", "R", "t2"⟩]⟩
    "u" "t1" (by decide)
  refine ⟨by decide, ?_, h.2.1 "R", h.2.2.1 "user" "write" (by decide) (by decide)⟩
  exact h.1 (by decide) (by decide) (by decide)

/-- C6 counterexample: u has no permission tuple at all, no grouping in t1,
and does not effectively hold global tenant-read, yet `CanAccessTenant`
returns true, because a role assigned to u in the global domain carries a
core-resource permission (user:write) that is visible inside t1. -/
theorem C6_counterexample_global_role :
    (∀ q ∈ ([⟨"R", "*", "user", "write"⟩] : List Policy),
      ¬(q.subject = "u" ∧ q.domain = "t1")) ∧
    (∀ g ∈ ([⟨"u", "R", "*"⟩] : List GroupingPolicy),
      ¬(g.userKey = "u" ∧ g.tenantKey = "t1")) ∧
    checkB ⟨[⟨"R", "*", "user", "write"⟩], [⟨"u", "R", "*"⟩]⟩ "u" "*"
      ⟨"tenant", "read"⟩ = false ∧
    canAccessTenant ⟨[⟨"R", "*", "user", "write"⟩], [⟨"u", "R", "*"⟩]⟩ "u" "t1" = .ok true := by
  decide

/-! ### Claim C9 -/

theorem mem_foldl_removePolicy :
    ∀ (L : List Policy) (m : Model) (p : Policy),
      p ∈ (L.foldl (fun acc q => removePolicyM acc q.subject q.domain ⟨q.resource, q.action⟩)
        m).policies ↔ p ∈ m.policies ∧ p ∉ L := by
  intro L
  induction L with
  | nil => intro m p; simp
  | cons q L ih =>
    intro m p
    simp only [List.foldl_cons, ih]
    constructor
    · rintro ⟨hp, hnl⟩
      rcases List.mem_filter.mp hp with ⟨hpm, hcond⟩
      have hneq : p ≠ q := by
        intro he; subst he
        simp at hcond
      refine ⟨hpm, ?_⟩
      simp only [List.mem_cons, not_or]
      exact ⟨hneq, hnl⟩
    · rintro ⟨hpm, hncons⟩
      simp only [List.mem_cons, not_or] at hncons
      obtain ⟨hneq, hnl⟩ := hncons
      refine ⟨List.mem_filter.mpr ⟨hpm, ?_⟩, hnl⟩
      simp only [decide_eq_true_eq]
      rintro ⟨h1, h2, h3, h4⟩
      apply hneq
      cases p; cases q; simp_all

theorem groupings_foldl_removePolicy :
    ∀ (L : List Policy) (m : Model),
      (L.foldl (fun acc q => removePolicyM acc q.subject q.domain ⟨q.resource, q.action⟩)
        m).groupings = m.groupings := by
  intro L
  induction L with
  | nil => intro m; rfl
  | cons q L ih => intro m; simp only [List.foldl_cons, ih]; rfl

/-- On a well-formed store, `ClearPolicies(s)` succeeds and removes exactly
the tuples whose subject is `s`, leaving groupings untouched. -/
theorem clearPolicies_spec {m : Model} {s : String} (hwf : wellFormed m = true)
    (hs : s ≠ "") :
    ∃ m1, clearPolicies m s = .ok m1 ∧ m1.groupings = m.groupings ∧
      (∀ q, q ∈ m1.policies ↔ q ∈ m.policies ∧ ¬q.subject = s) ∧ wellFormed m1 = true := by
  refine ⟨(m.policies.filter (fun q => decide ((s = "" ∨ q.subject = s) ∧
      (("" : String) = "" ∨ q.domain = "")))).foldl
      (fun acc q => removePolicyM acc q.subject q.domain ⟨q.resource, q.action⟩) m,
    ?_, groupings_foldl_removePolicy _ _, ?_, ?_⟩
  · unfold clearPolicies
    rw [getPolicies_ok hwf]
    rfl
  · intro q
    rw [mem_foldl_removePolicy]
    constructor
    · rintro ⟨hq, hnl⟩
      refine ⟨hq, fun hsub => hnl ?_⟩
      exact List.mem_filter.mpr ⟨hq, by simp [hsub]⟩
    · rintro ⟨hq, hnsub⟩
      refine ⟨hq, fun hl => ?_⟩
      rcases List.mem_filter.mp hl with ⟨-, hcond⟩
      rcases of_decide_eq_true hcond with ⟨h1 | h1, -⟩
      · exact hs h1
      · exact hnsub h1
  · refine List.all_eq_true.mpr fun q hq => ?_
    have hqm := ((mem_foldl_removePolicy _ _ _).mp hq).1
    exact List.all_eq_true.mp hwf q hqm

theorem mem_addPolicyM_iff {m : Model} {s d : String} {p : Permission} {q : Policy} :
    q ∈ (addPolicyM m s d p).policies ↔
      q ∈ m.policies ∨ q = ⟨s, d, p.resource, p.action⟩ := by
  by_cases h : (⟨s, d, p.resource, p.action⟩ : Policy) ∈ m.policies
  · rw [show addPolicyM m s d p = m from by simp [addPolicyM, h]]
    constructor
    · exact Or.inl
    · rintro (h1 | h1)
      · exact h1
      · rw [h1]; exact h
  · rw [show addPolicyM m s d p =
        { m with policies := m.policies ++ [⟨s, d, p.resource, p.action⟩] } from by
      simp [addPolicyM, h]]
    simp [List.mem_append]

theorem groupings_addPolicyM {m : Model} {s d : String} {p : Permission} :
    (addPolicyM m s d p).groupings = m.groupings := by
  by_cases h : (⟨s, d, p.resource, p.action⟩ : Policy) ∈ m.policies <;>
    simp [addPolicyM, h]

theorem mem_foldl_addPolicy (roleKey dom : String) :
    ∀ (perms : List Permission) (m : Model) (q : Policy),
      q ∈ (perms.foldl (fun acc p => if permValid p then addPolicyM acc roleKey dom p else acc)
        m).policies ↔
      q ∈ m.policies ∨
        ∃ p ∈ perms, permValid p = true ∧ q = ⟨roleKey, dom, p.resource, p.action⟩ := by
  intro perms
  induction perms with
  | nil => intro m q; simp
  | cons p ps ih =>
    intro m q
    simp only [List.foldl_cons]
    by_cases hv : permValid p = true
    · rw [if_pos hv, ih, mem_addPolicyM_iff]
      constructor
      · rintro ((h1 | h1) | ⟨x, hx, hvx, he⟩)
        · exact Or.inl h1
        · exact Or.inr ⟨p, List.mem_cons_self _ _, hv, h1⟩
        · exact Or.inr ⟨x, List.mem_cons_of_mem _ hx, hvx, he⟩
      · rintro (h1 | ⟨x, hx, hvx, he⟩)
        · exact Or.inl (Or.inl h1)
        · rcases List.mem_cons.mp hx with rfl | hx2
          · exact Or.inl (Or.inr he)
          · exact Or.inr ⟨x, hx2, hvx, he⟩
    · rw [if_neg hv, ih]
      constructor
      · rintro (h1 | ⟨x, hx, hvx, he⟩)
        · exact Or.inl h1
        · exact Or.inr ⟨x, List.mem_cons_of_mem _ hx, hvx, he⟩
      · rintro (h1 | ⟨x, hx, hvx, he⟩)
        · exact Or.inl h1
        · rcases List.mem_cons.mp hx with rfl | hx2
          · exact absurd hvx hv
          · exact Or.inr ⟨x, hx2, hvx, he⟩

theorem groupings_foldl_addPolicy (roleKey dom : String) :
    ∀ (perms : List Permission) (m : Model),
      (perms.foldl (fun acc p => if permValid p then addPolicyM acc roleKey dom p else acc)
        m).groupings = m.groupings := by
  intro perms
  induction perms with
  | nil => intro m; rfl
  | cons p ps ih =>
    intro m
    simp only [List.foldl_cons, ih]
    by_cases hv : permValid p = true
    · rw [if_pos hv, groupings_addPolicyM]
    · rw [if_neg hv]

theorem validAction_ne_empty {s : String} (h : validAction s = true) : s ≠ "" := by
  intro he
  subst he
  exact absurd h (by decide)

theorem permValid_of {p : Permission} (h1 : p.resource ≠ "") (h2 : p.action ≠ "") :
    permValid p = true := by
  simp [permValid, h1, h2]

/-- C9: `setRolePermissions(roleKey, permissions)` first removes the role's
permission tuples in every domain and then writes each new permission (or the
placeholder when the list is empty) into the global domain `*`, regardless of
the role's owning tenant: afterwards every tuple of the role has domain `*`,
and every user holding the role in any tenant sees each new permission in
their effective permissions there. -/
theorem C9_set_role_permissions_write_global (m : Model) (roleKey : String)
    (perms : List Permission) (hwf : wellFormed m = true) (hrk : roleKey ≠ "")
    (hperms : ∀ p ∈ perms, p.resource ≠ "" ∧ validAction p.action = true) :
    ∃ m2, setRolePermissionsInternal m roleKey perms = .ok m2 ∧
      m2.groupings = m.groupings ∧
      (∀ q, q ∈ m2.policies ↔
        ((q ∈ m.policies ∧ ¬q.subject = roleKey) ∨
         (perms ≠ [] ∧ q.subject = roleKey ∧ q.domain = "*" ∧
            (⟨q.resource, q.action⟩ : Permission) ∈ perms) ∨
         (perms = [] ∧ q = ⟨roleKey, "*", "_placeholder", "_none"⟩))) ∧
      (∀ q ∈ m2.policies, q.subject = roleKey → q.domain = "*") ∧
      (∀ p ∈ perms, ∀ u t, (⟨u, roleKey, t⟩ : GroupingPolicy) ∈ m.groupings →
        ∃ l, getImplicitPermissions m2 u t = .ok l ∧ p ∈ l) := by
  obtain ⟨m1, hcp, hg1, hmem1, hwf1⟩ := clearPolicies_spec hwf hrk
  by_cases hnil : perms = []
  · subst hnil
    refine ⟨addPolicyM m1 roleKey "*" ⟨"_placeholder", "_none"⟩, ?_, ?_, ?_, ?_, ?_⟩
    · simp [setRolePermissionsInternal, hcp]
    · rw [groupings_addPolicyM, hg1]
    · intro q
      rw [mem_addPolicyM_iff, hmem1 q]
      constructor
      · rintro (⟨h1, h2⟩ | h1)
        · exact Or.inl ⟨h1, h2⟩
        · exact Or.inr (Or.inr ⟨rfl, h1⟩)
      · rintro (⟨h1, h2⟩ | ⟨hne, -⟩ | ⟨-, h⟩)
        · exact Or.inl ⟨h1, h2⟩
        · exact absurd rfl hne
        · exact Or.inr h
    · intro q hq hs
      rcases (mem_addPolicyM_iff.mp hq) with h1 | h1
      · exact absurd hs ((hmem1 q).mp h1).2
      · rw [h1]
    · intro p hp
      exact absurd hp (List.not_mem_nil p)
  · refine ⟨perms.foldl (fun acc p => if permValid p then addPolicyM acc roleKey "*" p else acc)
        m1, ?_, ?_, ?_, ?_, ?_⟩
    · simp [setRolePermissionsInternal, hcp, hnil]
    · rw [groupings_foldl_addPolicy, hg1]
    · intro q
      rw [mem_foldl_addPolicy]
      constructor
      · rintro (h1 | ⟨p, hp, hv, rfl⟩)
        · exact Or.inl ((hmem1 q).mp h1)
        · refine Or.inr (Or.inl ⟨hnil, rfl, rfl, ?_⟩)
          have : (⟨p.resource, p.action⟩ : Permission) = p := by cases p; rfl
          rw [this]; exact hp
      · rintro (⟨h1, h2⟩ | ⟨-, hs, hd, hmem⟩ | ⟨he, -⟩)
        · exact Or.inl ((hmem1 q).mpr ⟨h1, h2⟩)
        · refine Or.inr ⟨⟨q.resource, q.action⟩, hmem, ?_, ?_⟩
          · exact permValid_of (hperms _ hmem).1 (validAction_ne_empty (hperms _ hmem).2)
          · cases q
            simp_all
        · exact absurd he hnil
    · intro q hq hs
      rcases (mem_foldl_addPolicy _ _ _ _ _).mp hq with h1 | ⟨p, hp, hv, rfl⟩
      · exact absurd hs ((hmem1 q).mp h1).2
      · rfl
    · have hwf2 : wellFormed (perms.foldl
          (fun acc p => if permValid p then addPolicyM acc roleKey "*" p else acc) m1) = true := by
        refine List.all_eq_true.mpr fun q hq => ?_
        rcases (mem_foldl_addPolicy _ _ _ _ _).mp hq with h1 | ⟨p, hp, hv, rfl⟩
        · exact List.all_eq_true.mp hwf1 q h1
        · exact (hperms p hp).2
      intro p hp u t hgt
      refine ⟨_, getImplicitPermissions_ok hwf2, ?_⟩
      have hgm2 : (⟨u, roleKey, t⟩ : GroupingPolicy) ∈ (perms.foldl
          (fun acc p => if permValid p then addPolicyM acc roleKey "*" p else acc)
          m1).groupings := by
        rw [groupings_foldl_addPolicy, hg1]; exact hgt
      have hrole : roleKey ∈ getRolesForUserInDomain (perms.foldl
          (fun acc p => if permValid p then addPolicyM acc roleKey "*" p else acc) m1) u t :=
        mem_getRolesForUserInDomain.mpr ⟨⟨u, roleKey, t⟩, hgm2, rfl, rfl, rfl⟩
      have hq0 : (⟨roleKey, "*", p.resource, p.action⟩ : Policy) ∈ (perms.foldl
          (fun acc p => if permValid p then addPolicyM acc roleKey "*" p else acc)
          m1).policies :=
        (mem_foldl_addPolicy _ _ _ _ _).mpr (Or.inr ⟨p, hp,
          permValid_of (hperms p hp).1 (validAction_ne_empty (hperms p hp).2), rfl⟩)
      refine mem_implicitB.mpr (Or.inr ⟨roleKey, Or.inl hrole,
        ⟨roleKey, "*", p.resource, p.action⟩, hq0, rfl, Or.inr rfl, ?_⟩)
      cases p; rfl

/-- C9 witness: setting a tenant-owned role's permissions replaces its tuples
and writes the new ones into the global domain, visible to a holder of the
role in another tenant. -/
theorem C9_set_role_permissions_write_global_witness :
    (wellFormed ⟨[⟨"r1", "t1", "document", "read"⟩, ⟨"other", "t1", "x", "read"⟩],
        [⟨"u", "r1", "t2"⟩]⟩ = true ∧
     ("r1" : String) ≠ "" ∧
     (∀ p ∈ ([⟨"report", "read"⟩] : List Permission),
        p.resource ≠ "" ∧ validAction p.action = true)) ∧
    (∃ m2, setRolePermissionsInternal ⟨[⟨"r1", "t1", "document", "read"⟩,
          ⟨"other", "t1", "x", "read"⟩], [⟨"u", "r1", "t2"⟩]⟩ "r1"
          [⟨"report", "read"⟩] = .ok m2 ∧
      m2.groupings = [⟨"u", "r1", "t2"⟩] ∧
      (∀ q, q ∈ m2.policies ↔
        ((q ∈ [(⟨"r1", "t1", "document", "read"⟩ : Policy), ⟨"other", "t1", "x", "read"⟩] ∧
            ¬q.subject = "r1") ∨
         (([⟨"report", "read"⟩] : List Permission) ≠ [] ∧ q.subject = "r1" ∧ q.domain = "*" ∧
            (⟨q.resource, q.action⟩ : Permission) ∈ ([⟨"report", "read"⟩] : List Permission)) ∨
         (([⟨"report", "read"⟩] : List Permission) = [] ∧
            q = ⟨"r1", "*", "_placeholder", "_none"⟩))) ∧
      (∀ q ∈ m2.policies, q.subject = "r1" → q.domain = "*") ∧
      (∀ p ∈ ([⟨"report", "read"⟩] : List Permission), ∀ u t,
        (⟨u, "r1", t⟩ : GroupingPolicy) ∈
            ([⟨"u", "r1", "t2"⟩] : List GroupingPolicy) →
        ∃ l, getImplicitPermissions m2 u t = .ok l ∧ p ∈ l)) :=
  ⟨⟨by decide, by decide, by decide⟩,
   C9_set_role_permissions_write_global
     ⟨[⟨"r1", "t1", "document", "read"⟩, ⟨"other", "t1", "x", "read"⟩], [⟨"u", "r1", "t2"⟩]⟩
     "r1" [⟨"report", "read"⟩] (by decide) (by decide) (by decide)⟩

end Casbinx
